import Mathlib

set_option maxRecDepth 100000

/-!
Verification of the agentauth mcp-gateway core: a shallow embedding of the
transport negotiator, the bidirectional message proxy, the multi-protocol
payment detector and the payment orchestrator, with theorems checking the
natural-language specification against the code.

JSON values are modelled by an inductive type; JavaScript objects become
association lists (key lookup returns the first matching binding, and a
missing key models the JavaScript value undefined).  Numbers are modelled
by integers for payloads and by rationals for monetary amounts (all amounts
the theorems touch are exactly representable, so the rational model agrees
with the JavaScript float semantics at every value used).
-/

namespace AAMCP

/-- JSON value model.  An absent object key models undefined. -/
inductive JSON where
  | null
  | bool (b : Bool)
  | num (n : Int)
  | str (s : String)
  | arr (items : List JSON)
  | obj (fields : List (String × JSON))

mutual

/-- Decidable equality for the JSON model (hand-rolled: the automatic
deriving does not support the nesting through List). -/
def JSON.decEq : (a b : JSON) → Decidable (a = b)
  | .null, .null => isTrue rfl
  | .bool a, .bool b =>
      if h : a = b then isTrue (h ▸ rfl)
      else isFalse (fun e => by cases e; exact h rfl)
  | .num a, .num b =>
      if h : a = b then isTrue (h ▸ rfl)
      else isFalse (fun e => by cases e; exact h rfl)
  | .str a, .str b =>
      if h : a = b then isTrue (h ▸ rfl)
      else isFalse (fun e => by cases e; exact h rfl)
  | .arr xs, .arr ys =>
      match JSON.decEqList xs ys with
      | isTrue h => isTrue (h ▸ rfl)
      | isFalse h => isFalse (fun e => by cases e; exact h rfl)
  | .obj xs, .obj ys =>
      match JSON.decEqFields xs ys with
      | isTrue h => isTrue (h ▸ rfl)
      | isFalse h => isFalse (fun e => by cases e; exact h rfl)
  | .null, .bool _ => isFalse (by intro h; cases h)
  | .null, .num _ => isFalse (by intro h; cases h)
  | .null, .str _ => isFalse (by intro h; cases h)
  | .null, .arr _ => isFalse (by intro h; cases h)
  | .null, .obj _ => isFalse (by intro h; cases h)
  | .bool _, .null => isFalse (by intro h; cases h)
  | .bool _, .num _ => isFalse (by intro h; cases h)
  | .bool _, .str _ => isFalse (by intro h; cases h)
  | .bool _, .arr _ => isFalse (by intro h; cases h)
  | .bool _, .obj _ => isFalse (by intro h; cases h)
  | .num _, .null => isFalse (by intro h; cases h)
  | .num _, .bool _ => isFalse (by intro h; cases h)
  | .num _, .str _ => isFalse (by intro h; cases h)
  | .num _, .arr _ => isFalse (by intro h; cases h)
  | .num _, .obj _ => isFalse (by intro h; cases h)
  | .str _, .null => isFalse (by intro h; cases h)
  | .str _, .bool _ => isFalse (by intro h; cases h)
  | .str _, .num _ => isFalse (by intro h; cases h)
  | .str _, .arr _ => isFalse (by intro h; cases h)
  | .str _, .obj _ => isFalse (by intro h; cases h)
  | .arr _, .null => isFalse (by intro h; cases h)
  | .arr _, .bool _ => isFalse (by intro h; cases h)
  | .arr _, .num _ => isFalse (by intro h; cases h)
  | .arr _, .str _ => isFalse (by intro h; cases h)
  | .arr _, .obj _ => isFalse (by intro h; cases h)
  | .obj _, .null => isFalse (by intro h; cases h)
  | .obj _, .bool _ => isFalse (by intro h; cases h)
  | .obj _, .num _ => isFalse (by intro h; cases h)
  | .obj _, .str _ => isFalse (by intro h; cases h)
  | .obj _, .arr _ => isFalse (by intro h; cases h)

/-- Decidable equality for JSON lists. -/
def JSON.decEqList : (xs ys : List JSON) → Decidable (xs = ys)
  | [], [] => isTrue rfl
  | [], _ :: _ => isFalse (by intro h; cases h)
  | _ :: _, [] => isFalse (by intro h; cases h)
  | x :: xs, y :: ys =>
      match JSON.decEq x y with
      | isFalse h => isFalse (fun e => by cases e; exact h rfl)
      | isTrue h1 =>
          match JSON.decEqList xs ys with
          | isTrue h2 => isTrue (by rw [h1, h2])
          | isFalse h => isFalse (fun e => by cases e; exact h rfl)

/-- Decidable equality for JSON object field lists. -/
def JSON.decEqFields : (xs ys : List (String × JSON)) → Decidable (xs = ys)
  | [], [] => isTrue rfl
  | [], _ :: _ => isFalse (by intro h; cases h)
  | _ :: _, [] => isFalse (by intro h; cases h)
  | (k, v) :: xs, (k', v') :: ys =>
      if hk : k = k' then
        match JSON.decEq v v' with
        | isFalse h => isFalse (fun e => by cases e; exact h rfl)
        | isTrue hv =>
            match JSON.decEqFields xs ys with
            | isTrue h2 => isTrue (by rw [hk, hv, h2])
            | isFalse h => isFalse (fun e => by cases e; exact h rfl)
      else isFalse (fun e => by cases e; exact hk rfl)

end

instance : DecidableEq JSON := JSON.decEq

namespace JSON

/-- Object property lookup (first binding wins); returns none (undefined)
for a missing key and for any non-object receiver. -/
def get : JSON → String → Option JSON
  | .obj fields, k => go fields k
  | _, _ => none
where go : List (String × JSON) → String → Option JSON
  | [], _ => none
  | (k', v) :: rest, k => if k' = k then some v else go rest k

/-- JavaScript truthiness of a defined value. -/
def truthy : JSON → Bool
  | .null => false
  | .bool b => b
  | .num n => n != 0
  | .str s => s != ""
  | .arr _ => true
  | .obj _ => true

end JSON

/-- JavaScript truthiness of a possibly-undefined value. -/
def truthyO : Option JSON → Bool
  | none => false
  | some j => j.truthy

/-- typeof v === 'object' && v !== null (arrays included). -/
def isObjLike : JSON → Bool
  | .obj _ => true
  | .arr _ => true
  | _ => false

/-- JavaScript property assignment on an object field list: replaces the
first binding of the key in place, or appends a new binding. -/
def setField : List (String × JSON) → String → JSON → List (String × JSON)
  | [], k, v => [(k, v)]
  | (k', v') :: rest, k, v =>
      if k' = k then (k, v) :: rest else (k', v') :: setField rest k v

/-- String-coercion used by JavaScript template literals: strings unchanged,
null/booleans/integers spelled out, arrays joined with commas (null elements
become empty), plain objects become "[object Object]", undefined (a missing
property) is handled by displayO below. -/
def JSON.display : JSON → String
  | .null => "null"
  | .bool true => "true"
  | .bool false => "false"
  | .num n => toString n
  | .str s => s
  | .arr items => String.intercalate "," (dispList items)
  | .obj _ => "[object Object]"
where dispList : List JSON → List String
  | [] => []
  | .null :: rest => "" :: dispList rest
  | j :: rest => j.display :: dispList rest

/-- Template-literal coercion of a possibly-undefined value. -/
def displayO : Option JSON → String
  | none => "undefined"
  | some j => j.display

example : JSON.display (.arr [.num 1, .null, .str "a"]) = "1,,a" := by decide
example : truthyO ((JSON.obj [("a", .num 0)]).get "a") = false := by decide

/-! ## String utilities with JavaScript semantics

Strings are handled through their character lists.  JavaScript string
length counts UTF-16 code units; every string these claims touch is ASCII,
where that count coincides with the character count.  -/

/-- String from a character list. -/
def ofChars (l : List Char) : String := ⟨l⟩

/-- Does the needle occur at the head of the hay? -/
def leadMatch : List Char → List Char → Bool
  | [], _ => true
  | _ :: _, [] => false
  | c :: cs, d :: ds => c == d && leadMatch cs ds

/-- JavaScript String.startsWith. -/
def jsStartsWith (s p : String) : Bool := leadMatch p.data s.data

/-- Does the needle occur anywhere in the hay (JavaScript String.includes)? -/
def containsSub (hay needle : List Char) : Bool :=
  match hay with
  | [] => needle.isEmpty
  | _ :: t => leadMatch needle hay || containsSub t needle

/-- JavaScript String.includes. -/
def jsIncludes (s sub : String) : Bool := containsSub s.data sub.data

/-- Hexadecimal digit (either case). -/
def isHexDigit (c : Char) : Bool :=
  decide (('0' ≤ c ∧ c ≤ '9') ∨ ('a' ≤ c ∧ c ≤ 'f') ∨ ('A' ≤ c ∧ c ≤ 'F'))

/-- Lowercase hexadecimal digit. -/
def isLowerHexDigit (c : Char) : Bool :=
  decide (('0' ≤ c ∧ c ≤ '9') ∨ ('a' ≤ c ∧ c ≤ 'f'))

/-- Decimal digit. -/
def isDecDigit (c : Char) : Bool := decide ('0' ≤ c ∧ c ≤ '9')

/-- Value of a hexadecimal digit, none outside the hexadecimal range. -/
def hexDigitVal (c : Char) : Option Nat :=
  if '0' ≤ c ∧ c ≤ '9' then some (c.toNat - 48)
  else if 'a' ≤ c ∧ c ≤ 'f' then some (c.toNat - 87)
  else if 'A' ≤ c ∧ c ≤ 'F' then some (c.toNat - 55)
  else none

/-- Value of a decimal digit, none outside 0-9. -/
def decDigitVal (c : Char) : Option Nat :=
  if '0' ≤ c ∧ c ≤ '9' then some (c.toNat - 48) else none

/-- Value of an octal digit, none outside 0-7. -/
def octDigitVal (c : Char) : Option Nat :=
  if '0' ≤ c ∧ c ≤ '7' then some (c.toNat - 48) else none

/-- Value of a binary digit, none outside 0-1. -/
def binDigitVal (c : Char) : Option Nat :=
  if '0' ≤ c ∧ c ≤ '1' then some (c.toNat - 48) else none

/-- Accumulating positional parse over digits already seen. -/
def parseDigitsAux (dv : Char → Option Nat) (radix : Nat) : List Char → Nat → Option Nat
  | [], acc => some acc
  | c :: rest, acc =>
      match dv c with
      | some d => parseDigitsAux dv radix rest (acc * radix + d)
      | none => none

/-- Parse a non-empty digit string under the given digit function; none on
any invalid or missing digit (the failure JavaScript BigInt reports by
throwing). -/
def parseDigits (dv : Char → Option Nat) (radix : Nat) : List Char → Option Nat
  | [] => none
  | l => parseDigitsAux dv radix l 0

/-- Parse hexadecimal digits, as in BigInt('0x' + s). -/
def parseHexDigits (l : List Char) : Option Nat := parseDigits hexDigitVal 16 l

/-- Parse decimal digits. -/
def parseDecDigits (l : List Char) : Option Nat := parseDigits decDigitVal 10 l

/-- Whitespace for the purposes of JavaScript string trimming (ASCII part
of the Unicode whitespace set, which covers every input in scope). -/
def isJsWs (c : Char) : Bool :=
  c == ' ' || c == '\t' || c == '\n' || c == '\r' || c == '\x0b' || c == '\x0c'

/-- Trim leading and trailing JavaScript whitespace. -/
def trimChars (l : List Char) : List Char :=
  ((l.dropWhile isJsWs).reverse.dropWhile isJsWs).reverse

/-- ASCII lowercasing of one character (String.prototype.toLowerCase on
the ASCII range; every string the lowercasing touches here is ASCII). -/
def lowerChar (c : Char) : Char :=
  if 'A' ≤ c ∧ c ≤ 'Z' then Char.ofNat (c.toNat + 32) else c

/-- ASCII String.prototype.toLowerCase. -/
def lowerStr (s : String) : String := ofChars (s.data.map lowerChar)

/-- JavaScript StringToBigInt: whitespace-trimmed; empty means zero; an
optional sign before decimal digits; 0x/0o/0b radix literals (unsigned);
anything else throws, modelled as none. -/
def parseBigIntStr (s : String) : Option Int :=
  match trimChars s.data with
  | [] => some 0
  | c :: cs =>
      if c = '0' ∧ (cs.head? = some 'x' ∨ cs.head? = some 'X') then
        (parseHexDigits cs.tail).map Int.ofNat
      else if c = '0' ∧ (cs.head? = some 'o' ∨ cs.head? = some 'O') then
        (parseDigits octDigitVal 8 cs.tail).map Int.ofNat
      else if c = '0' ∧ (cs.head? = some 'b' ∨ cs.head? = some 'B') then
        (parseDigits binDigitVal 2 cs.tail).map Int.ofNat
      else if c = '-' then (parseDecDigits cs).map (fun n => -(Int.ofNat n))
      else if c = '+' then (parseDecDigits cs).map Int.ofNat
      else (parseDecDigits (c :: cs)).map Int.ofNat

example : parseBigIntStr "1000000" = some 1000000 := by decide
example : parseBigIntStr "0x10" = some 16 := by decide
example : parseBigIntStr " 42 " = some 42 := by decide
example : parseBigIntStr "" = some 0 := by decide
example : parseBigIntStr "1e3" = none := by decide
example : parseBigIntStr "-5" = some (-5) := by decide

/-- JavaScript String.padStart(w, '0') on character lists. -/
def padStartZeros (w : Nat) (l : List Char) : List Char :=
  if w ≤ l.length then l else List.replicate (w - l.length) '0' ++ l

/-- JavaScript String.slice(-n): the last n characters (the whole string
when it is shorter than n). -/
def takeLast (n : Nat) (l : List Char) : List Char := l.drop (l.length - n)

/-- Model of ethers.isAddress, restricted to lowercase hexadecimal
addresses (0x followed by 40 lowercase hex digits).  Mixed-case
checksummed and uppercase forms are outside this model; every address the
theorems use is lowercase, where the model and ethers agree. -/
def isAddressStr (s : String) : Bool :=
  match s.data with
  | '0' :: 'x' :: rest => rest.length == 40 && rest.all isLowerHexDigit
  | _ => false

/-- The regular expression 0x[0-9a-fA-F]* anchored at both ends, used by
the transaction-template validators on data and value fields. -/
def isHexDataStr (s : String) : Bool :=
  match s.data with
  | '0' :: 'x' :: rest => rest.all isHexDigit
  | _ => false

/-- ethers.formatUnits(n, 6) for a non-negative value: decimal string with
an explicit fractional part, trailing zeros trimmed but never empty. -/
def formatUnits6 (n : Nat) : String :=
  let fracStr := padStartZeros 6 (Nat.toDigits 10 (n % 1000000))
  let trimmed := (fracStr.reverse.dropWhile (· == '0')).reverse
  ofChars (Nat.toDigits 10 (n / 1000000) ++ '.' :: (if trimmed.isEmpty then ['0'] else trimmed))

example : formatUnits6 1000000 = "1.0" := by decide
example : formatUnits6 500000 = "0.5" := by decide
example : formatUnits6 16 = "0.000016" := by decide

/-! ## Transaction templates and the payment orchestrator

TransactionTemplate mirrors the TypeScript interface of the same name in
src/protocols/agentpay-v002.ts: to, data, value and gasLimit are strings,
chainId is a number (an integer here), and x402Requirement is an optional
passthrough payload.  -/

structure TxTemplate where
  «to» : String
  data : String
  value : String
  chainId : Int
  gasLimit : String
  x402Requirement : Option JSON := none
deriving DecidableEq

/-- The ERC-20 transfer(address,uint256) selector with its 0x prefix. -/
def transferSelector : List Char := ("0xa9059cbb" : String).data

/-- AgentPayV002Protocol.fixTruncatedTransactionData: left-pad the amount
word of an ERC-20 transfer whose data is at least selector+recipient wide
(74 characters) but shorter than the full 138-character encoding; leave
every other template untouched. -/
def fixTruncatedTransactionData (t : TxTemplate) : TxTemplate :=
  let d := t.data.data
  if d.isEmpty then t
  else if leadMatch transferSelector d ∧ 74 ≤ d.length ∧ d.length < 138 then
    { t with data := ofChars (d.take 74 ++ padStartZeros 64 (d.drop 74)) }
  else t

/-- X402Protocol.fixTruncatedTransactionData: the identity (x402 templates
are generated by the protocol itself and never repaired). -/
def x402FixTruncatedTransactionData (t : TxTemplate) : TxTemplate := t

/-- The validation errors AgentPayV002Protocol.validateTransactionTemplate
can push, keyed by the message it produces. -/
inductive VErr where
  | invalidRecipient
  | invalidData
  | usdcBadLength (n : Nat)
  | usdcUnparseable
  | invalidValue
  | invalidChainId
  | missingGasLimit
  | unexpectedChainId (c : Int)
deriving DecidableEq

/-- USDC contract address on Base mainnet, lowercase, as compared against
template.to.toLowerCase() in the validator. -/
def usdcMainnet : String := "0x833589fcd6edb6e08f4c7c32d4f71b54bda02913"

/-- Model of parsing template data against the ERC-20 transfer fragment
(ethers Interface.parseTransaction): the selector followed by two
32-byte words of hexadecimal digits. -/
def parseableTransfer (d : List Char) : Bool :=
  leadMatch transferSelector d && d.length == 138 && (d.drop 2).all isHexDigit

/-- AgentPayV002Protocol.validateTransactionTemplate, collecting errors in
the order the source pushes them.  The typeof-number test on chainId is
always satisfied in this typed model, so the chain-id presence check
reduces to the falsiness test against 0. -/
def validateTransactionTemplate (t : TxTemplate) : List VErr :=
  (if t.«to» = "" ∨ ¬ isAddressStr t.«to» then [VErr.invalidRecipient] else [])
  ++ (if t.data = "" ∨ ¬ isHexDataStr t.data then [VErr.invalidData] else [])
  ++ (if t.data ≠ "" ∧ t.«to» ≠ "" ∧ lowerStr t.«to» = usdcMainnet then
        (if t.data.data.length ≠ 138 then [VErr.usdcBadLength t.data.data.length] else [])
        ++ (if ¬ parseableTransfer t.data.data then [VErr.usdcUnparseable] else [])
      else [])
  ++ (if t.value = "" ∨ ¬ isHexDataStr t.value then [VErr.invalidValue] else [])
  ++ (if t.chainId = 0 then [VErr.invalidChainId] else [])
  ++ (if t.gasLimit = "" then [VErr.missingGasLimit] else [])
  ++ (if t.chainId ≠ 8453 then [VErr.unexpectedChainId t.chainId] else [])

/-- PaymentHandler.extractAmountFromTransaction: for data carrying the
ERC-20 transfer selector, decode the last 64 characters as the hexadecimal
atomic amount and scale by 10^6 (USDC decimals); any decode failure (the
BigInt constructor throwing) and any other data shape give 0.  Amounts are
rationals standing for the parseFloat(formatUnits(wei, 6)) value; every
amount compared in the theorems is exactly representable. -/
def extractAmountFromTransaction (t : TxTemplate) : ℚ :=
  let d := t.data.data
  if t.data ≠ "" ∧ leadMatch transferSelector d then
    match parseHexDigits (takeLast 64 d) with
    | some n => (n : ℚ) / 1000000
    | none => 0
  else 0

/-- Wallet-facing environment of one processPaymentAuthorization call: the
balance query, the gas estimation and the signing step are external Signer
operations that either return a value or throw. -/
structure WalletEnv where
  balances : Except String (ℚ × ℚ)
  estimate : Except String ℚ
  sign : Except String (String × String)

/-- The documented conservative gas fallback constant '0.00005'. -/
def fallbackGasCost : ℚ := 5 / 100000

/-- Result of PaymentHandler.estimateTransactionGas. -/
structure GasEstimate where
  costEth : ℚ
  sufficient : Bool
  degraded : Bool
deriving DecidableEq

/-- PaymentHandler.estimateTransactionGas at its call sites inside the
authorization flow (a parsed transaction is always present there): use the
Signer estimate when it succeeds, otherwise substitute the fallback
constant and mark the estimate degraded; sufficiency is a strict
comparison of the available gas balance against the cost. -/
def estimateTransactionGas (env : WalletEnv) (availableEth : ℚ) : GasEstimate :=
  match env.estimate with
  | .ok c => ⟨c, decide (c < availableEth), false⟩
  | .error _ => ⟨fallbackGasCost, decide (fallbackGasCost < availableEth), true⟩

/-- Structured form of the error strings processPaymentAuthorization can
return, one constructor per return site. -/
inductive AuthError where
  | invalidTransaction (errs : List VErr)
  | insufficientUsdc (required available : ℚ)
  | insufficientGas (cost available : ℚ) (degraded : Bool)
  | thrown (msg : String)
deriving DecidableEq

/-- Outcome of processPaymentAuthorization: either one-time payment
headers or a structured error (the source's \x7b headers? \x7d | \x7b error? \x7d). -/
inductive AuthResult where
  | headers (hs : List (String × String))
  | error (e : AuthError)
deriving DecidableEq

/-- AgentPayV002Protocol.createAuthorizationHeaders. -/
def agentpayAuthorizationHeaders (signedTx sender : String) : List (String × String) :=
  [("x-agentpay-authorization", signedTx), ("x-agentpay-from", sender)]

/-- PaymentHandler.processPaymentAuthorization from the point where the
aa_payment_transaction argument has been JSON-decoded into a
TransactionTemplate: the handler always resolves the agentpay-v002
descriptor (the protocol name is hardcoded at the lookup), repairs the
template, validates the repaired template, checks the USDC balance against
the amount recomputed from the repaired transaction data, checks gas, then
signs and builds headers; every Signer throw is caught and surfaced as an
error result. -/
def processPaymentAuthorization (env : WalletEnv) (tx : TxTemplate) : AuthResult :=
  let fixed := fixTruncatedTransactionData tx
  let errs := validateTransactionTemplate fixed
  if errs ≠ [] then .error (.invalidTransaction errs)
  else
    match env.balances with
    | .error e => .error (.thrown e)
    | .ok (availableUsdc, availableEth) =>
      let requiredAmount := extractAmountFromTransaction fixed
      if availableUsdc < requiredAmount then
        .error (.insufficientUsdc requiredAmount availableUsdc)
      else
        let g := estimateTransactionGas env availableEth
        if ¬ g.sufficient then
          .error (.insufficientGas g.costEth availableEth g.degraded)
        else
          match env.sign with
          | .error e => .error (.thrown e)
          | .ok (signedTx, sender) => .headers (agentpayAuthorizationHeaders signedTx sender)

/-! ## MCP response data extraction (src/lib/mcpUtils.ts)

JSON.parse is a JavaScript builtin consumed by the source; it enters the
model as a parameter parse : String → Option JSON, where none models the
parse throwing.  Every theorem below quantifies over the parse function. -/

/-- isMCPContentFormat: the result is an object whose content is a
non-empty array whose first item is a truthy object with type 'text' and a
string text field. -/
def isMCPContentFormat (result : JSON) : Bool :=
  isObjLike result &&
  (match result.get "content" with
   | some (.arr (item :: _)) =>
       item.truthy && isObjLike item &&
       decide (item.get "type" = some (.str "text")) &&
       (match item.get "text" with | some (.str _) => true | _ => false)
   | _ => false)

/-- The tolerant rewrite of Python-style dict strings applied before the
second parse attempt: single quotes to double quotes, True/False/None to
their JSON spellings (String.replace replaces every occurrence, like the
global regexes in the source). -/
def pythonJsonify (s : String) : String :=
  (((s.replace "'" "\"").replace "True" "true").replace "False" "false").replace "None" "null"

/-- The smart extraction at the end of extractFromMCPContent: return
error.data from the parsed content when that chain is defined and truthy,
otherwise the full parsed content. -/
def smartExtract (p : JSON) : JSON :=
  match (p.get "error").bind (fun e => e.get "data") with
  | some d => if d.truthy then d else p
  | none => p

/-- extractFromMCPContent: parse the embedded text, retrying after the
Python-style rewrite; when both parses fail the function catches the error
and returns the raw text.  The call site guards the content shape with
isMCPContentFormat, so the text item is always present; the fallback arm
for other shapes is unreachable. -/
def extractFromMCPContent (parse : String → Option JSON) (result : JSON) : JSON :=
  match result.get "content" with
  | some (.arr (item :: _)) =>
      (match item.get "text" with
       | some (.str text) =>
           (match parse text with
            | some p => smartExtract p
            | none =>
                match parse (pythonJsonify text) with
                | some p => smartExtract p
                | none => .str text)
       | _ => .null)
  | _ => .null

/-- extractMCPResponseData: payload from error.data, else error, else the
result (parsing embedded MCP content when present); none when neither an
error nor a result is truthy. -/
def extractMCPResponseData (parse : String → Option JSON) (m : JSON) : Option JSON :=
  match m.get "error" with
  | some e =>
      if e.truthy then
        if truthyO (e.get "data") then e.get "data" else some e
      else extractFromResult parse m
  | none => extractFromResult parse m
where extractFromResult (parse : String → Option JSON) (m : JSON) : Option JSON :=
  match m.get "result" with
  | some r =>
      if r.truthy then
        if isMCPContentFormat r then some (extractFromMCPContent parse r)
        else some r
      else none
  | none => none

/-! ## Protocol descriptors and the detector -/

/-- X402Protocol.isPaymentRequired: lightweight detection of a non-null
object with a non-null x402Version and an accepts array. -/
def x402IsPaymentRequired (response : JSON) : Bool :=
  isObjLike response &&
  (match response.get "x402Version" with
   | some v => decide (v ≠ .null)
   | none => false) &&
  (match response.get "accepts" with
   | some (.arr _) => true
   | _ => false)

/-- The loose inequality v != null of JavaScript: false for both undefined
and null. -/
def looseNeNull : Option JSON → Bool
  | none => false
  | some .null => false
  | some _ => true

/-- The content-item scan inside AgentPayV002Protocol.isPaymentRequired:
text items are parsed (parse failures continue the loop); a parsed payload
with x402Version returns false for the whole predicate, payment_required
or code 402 returns true, anything else continues. -/
def agentpayContentScan (parse : String → Option JSON) : List JSON → Bool
  | [] => false
  | item :: rest =>
      if decide (item.get "type" = some (JSON.str "text")) && truthyO (item.get "text") then
        match parse (displayO (item.get "text")) with
        | some p =>
            if looseNeNull (p.get "x402Version") then false
            else if decide (p.get "error" = some (.str "payment_required"))
                    || decide (p.get "code" = some (.num 402)) then true
            else agentpayContentScan parse rest
        | none => agentpayContentScan parse rest
      else agentpayContentScan parse rest

/-- AgentPayV002Protocol.isPaymentRequired: falsy responses and x402
responses are excluded, then the payment_required error, the 402 code, and
finally a scan of embedded content items. -/
def agentpayIsPaymentRequired (parse : String → Option JSON) (response : JSON) : Bool :=
  if !response.truthy then false
  else if looseNeNull (response.get "x402Version") then false
  else if decide (response.get "error" = some (.str "payment_required")) then true
  else if decide (response.get "code" = some (.num 402)) then true
  else match response.get "content" with
       | some (.arr items) => agentpayContentScan parse items
       | _ => false

/-- A registered descriptor as the detector sees it: a detection predicate
that may throw (the error side of Except). -/
abbrev DetectPredicate := JSON → Except String Bool

/-- Map.get over the registered protocols. -/
def lookupProto : List (String × DetectPredicate) → String → Option DetectPredicate
  | [], _ => none
  | (n, p) :: rest, name => if n = name then some p else lookupProto rest name

/-- The priority iteration of ProtocolDetector.detectProtocol: unknown
names are skipped, a throwing predicate is caught and treated as a
non-match (the loop continues), and the first match is returned with the
already-normalized payload. -/
def detectLoop (protocols : List (String × DetectPredicate)) (payload : JSON) :
    List String → Option (String × JSON)
  | [] => none
  | name :: rest =>
      match lookupProto protocols name with
      | none => detectLoop protocols payload rest
      | some pred =>
          match pred payload with
          | .ok true => some (name, payload)
          | .ok false => detectLoop protocols payload rest
          | .error _ => detectLoop protocols payload rest

/-- The body of ProtocolDetector.detectProtocol inside its outermost
try/catch: normalize the message, return no-match for a falsy payload, and
run the priority loop.  The Except result records whether any exception
escapes this body. -/
def detectProtocolE (protocols : List (String × DetectPredicate)) (priority : List String)
    (parse : String → Option JSON) (m : JSON) : Except String (Option (String × JSON)) :=
  match extractMCPResponseData parse m with
  | none => .ok none
  | some payload =>
      if !payload.truthy then .ok none
      else .ok (detectLoop protocols payload priority)

/-- ProtocolDetector.detectProtocol: the body with the outermost catch
turning any escaped exception into a no-match. -/
def detectProtocol (protocols : List (String × DetectPredicate)) (priority : List String)
    (parse : String → Option JSON) (m : JSON) : Option (String × JSON) :=
  match detectProtocolE protocols priority parse m with
  | .ok o => o
  | .error _ => none

/-- The x402 descriptor's predicate (its internal try/catch makes it
total). -/
def x402Pred : DetectPredicate := fun j => .ok (x402IsPaymentRequired j)

/-- The agentpay-v002 descriptor's predicate. -/
def agentpayPred (parse : String → Option JSON) : DetectPredicate :=
  fun j => .ok (agentpayIsPaymentRequired parse j)

/-- The registration performed by the PaymentHandler constructor: x402
first, agentpay-v002 second. -/
def registeredProtocols (parse : String → Option JSON) : List (String × DetectPredicate) :=
  [("x402", x402Pred), ("agentpay-v002", agentpayPred parse)]

/-- The fixed detector priority list. -/
def protocolPriority : List String := ["x402", "agentpay-v002"]

/-! ## The bidirectional message proxy (mcpProxy in src/lib/utils.ts) -/

/-- The gateway version interpolated into rewritten client names. -/
def gatewayVersion : String := "0.1.0"

/-- The suffix appended to clientInfo.name of initialize requests. -/
def clientInfoSuffix : String := " (via agentauth-mcp " ++ gatewayVersion ++ ")"

/-- The in-place rewrite the local-to-remote handler performs on
initialize requests: destructure message.params (throwing on undefined or
null params, the error side here), and when clientInfo is truthy overwrite
clientInfo.name with its template-literal display plus the gateway suffix.
A truthy primitive clientInfo makes the strict-mode property assignment
throw; a truthy array accepts the assignment but carries it as a
non-serialized expando, invisible on the wire, so the message is forwarded
unchanged in that case. -/
def clientInfoRewrite (m : JSON) : Except Unit JSON :=
  if m.get "method" = some (.str "initialize") then
    match m.get "params" with
    | none => .error ()
    | some .null => .error ()
    | some p =>
        if truthyO (p.get "clientInfo") then
          match m, p, p.get "clientInfo" with
          | .obj mFields, .obj pFields, some (.obj ciFields) =>
              let newName := JSON.str (displayO (JSON.get (.obj ciFields) "name") ++ clientInfoSuffix)
              .ok (.obj (setField mFields "params"
                    (.obj (setField pFields "clientInfo"
                      (.obj (setField ciFields "name" newName))))))
          | _, _, some (.arr _) => .ok m
          | _, _, _ => .error ()
        else .ok m
  else .ok m

/-- PaymentHandler.hasPaymentAuthorization: truthy params whose truthy
arguments carry aa_payment_approved strictly equal to true or 'true' and a
truthy aa_payment_transaction. -/
def hasPaymentAuthorization (m : JSON) : Bool :=
  match m.get "params" with
  | some p =>
      p.truthy &&
      (match p.get "arguments" with
       | some args =>
           args.truthy &&
           (decide (args.get "aa_payment_approved" = some (.bool true))
             || decide (args.get "aa_payment_approved" = some (.str "true"))) &&
           truthyO (args.get "aa_payment_transaction")
       | none => false)
  | none => false

/-- What one proxy callback does with the message it received. -/
inductive ProxyAction where
  | forward (m : JSON)
  | errorToSender (e : JSON)
  | crash
deriving DecidableEq

/-- Outcome of the authorization call as the proxy sees it. -/
inductive AuthOutcome where
  | ok (headers : List (String × String))
  | err (msg : String)

/-- The synthesized error response the proxy sends back to the local side
when authorization fails. -/
def paymentFailedResponse (m : JSON) (msg : String) : JSON :=
  .obj [("jsonrpc", .str "2.0"),
        ("id", (m.get "id").getD (.str "error")),
        ("error", .obj
          [("code", .num (-32001)),
           ("message", .str "Payment authorization failed"),
           ("data", .obj
             [("error_type", .str "payment_authorization_failed"),
              ("message", .str msg),
              ("instructions", .str "Please fix the issue and retry with the same parameters.")])])]

/-- The local-to-remote callback of mcpProxy: rewrite initialize requests,
then, when a wallet is active and the (rewritten) message carries payment
authorization, run the orchestrator (a parameter here, as it performs
wallet I/O): an error sends a synthesized response back to the local side
and drops the message; headers are staged on the remote transport's
pending slot; otherwise the message is forwarded as-is.  The second
component is the staged header set, if any. -/
def localToRemote (walletActive : Bool) (authorize : JSON → AuthOutcome) (m : JSON) :
    ProxyAction × Option (List (String × String)) :=
  match clientInfoRewrite m with
  | .error _ => (.crash, none)
  | .ok m' =>
      if walletActive && hasPaymentAuthorization m' then
        match authorize m' with
        | .err msg => (.errorToSender (paymentFailedResponse m' msg), none)
        | .ok hs => (.forward m', some hs)
      else (.forward m', none)

/-- The remote-to-local callback of mcpProxy: when a wallet is active and
the detector matches a payment protocol, forward the enriched message (the
enrichment runs wallet I/O and enters as a parameter; none models
processPaymentRequired throwing, in which case the handler catches and
falls through to forwarding the original); otherwise forward unchanged. -/
def remoteToLocal (walletActive : Bool) (parse : String → Option JSON)
    (enrich : Option JSON) (m : JSON) : ProxyAction :=
  if walletActive
      && (detectProtocol (registeredProtocols parse) protocolPriority parse m).isSome then
    match enrich with
    | some enhanced => .forward enhanced
    | none => .forward m
  else .forward m

/-! ## The auth-refresh transport wrapper (AuthRefreshTransportWrapper) -/

/-- Entry replacement in an ordered header list: overwrite the first
binding of the key in place or append. -/
def setEntry : List (String × String) → String → String → List (String × String)
  | [], k, v => [(k, v)]
  | (k', v') :: rest, k, v =>
      if k' = k then (k, v) :: rest else (k', v') :: setEntry rest k v

/-- JavaScript object spread \x7b...a, ...b\x7d: b's entries override a's. -/
def spreadMerge (a b : List (String × String)) : List (String × String) :=
  b.foldl (fun acc kv => setEntry acc kv.1 kv.2) a

/-- Headers.set: header names are case-insensitive and stored lowercase. -/
def headersSet (hs : List (String × String)) (k v : String) : List (String × String) :=
  setEntry hs (lowerStr k) v

/-- Build a Headers object from initial entries. -/
def mkHeaders (init : List (String × String)) : List (String × String) :=
  init.foldl (fun acc kv => headersSet acc kv.1 kv.2) []

/-- Apply Object.entries(finalHeaders).forEach(headers.set). -/
def applyHeaders (hs entries : List (String × String)) : List (String × String) :=
  entries.foldl (fun acc kv => headersSet acc kv.1 kv.2) hs

/-- The wrapper's only mutable state: the staged one-time payment header
slot. -/
structure WrapperState where
  pendingPaymentHeaders : Option (List (String × String))
deriving DecidableEq

/-- setPaymentHeadersForNextRequest: stage a header set for the next
request only. -/
def setPaymentHeadersForNextRequest (_st : WrapperState) (hs : List (String × String)) :
    WrapperState :=
  ⟨some hs⟩

/-- One intercepted POST send: fresh identity headers (generated anew per
request by external crypto, entering as a parameter) are merged under the
static custom headers; a staged payment header set is merged in last and
the slot is cleared in the same step, before the send resolves; the
resulting entries are set onto the request's Headers object.  Returns the
final header object and the post-send wrapper state. -/
def interceptPost (freshHeaders baseCustomHeaders initHeaders : List (String × String))
    (st : WrapperState) : List (String × String) × WrapperState :=
  let base := spreadMerge freshHeaders baseCustomHeaders
  match st.pendingPaymentHeaders with
  | some p => (applyHeaders (mkHeaders initHeaders) (spreadMerge base p), ⟨none⟩)
  | none => (applyHeaders (mkHeaders initHeaders) base, st)

/-! ## The transport negotiator (connectToRemoteServer) -/

/-- The four transport strategies. -/
inductive TransportStrategy where
  | sseOnly | httpOnly | sseFirst | httpFirst
deriving DecidableEq

/-- The two transport kinds that can be attempted. -/
inductive TransportKind where
  | sse | http
deriving DecidableEq

/-- Environment of one negotiation: does starting a transport of each kind
fail (and with what message), and does the streamable-HTTP probe fail.
The probe only runs when an http transport started successfully. -/
structure ConnEnv where
  startErr : TransportKind → Option String
  probeErr : Option String

/-- The fallback-eligible error classification: messages mentioning
404/405 equivalents or a protocol mismatch. -/
def isProtocolLikeError (msg : String) : Bool :=
  jsIncludes msg "405" || jsIncludes msg "Method Not Allowed" ||
  jsIncludes msg "404" || jsIncludes msg "Not Found" ||
  jsIncludes msg "protocol error"

/-- Fallback is only attempted for the two -first strategies and only when
the fallback reason is not already in the recursion ledger. -/
def shouldAttemptFallback (s : TransportStrategy) (hasReason : Bool) : Bool :=
  (s == .httpFirst || s == .sseFirst) && !hasReason

/-- Observable result of a negotiation: the transport kinds attempted in
order (one entry per transport leg; the probe belongs to the http leg that
started it), how many times the fallback reason was added to the ledger,
and the final outcome. -/
structure ConnResult where
  attempts : List TransportKind
  fallbackRecords : Nat
  outcome : Except String Unit

/-- connectToRemoteServer over the environment, with explicit recursion
fuel (the source recursion terminates because the ledger can only grow and
only-strategies never recurse; depth never exceeds three, so any fuel of
at least three gives the source behaviour).  The ledger parameter is the
membership of the single fallback reason.  The probe-failure handler
hardcodes sse-only as its fallback strategy; a probe error that is not
fallback-eligible is rethrown into the outer catch, whose identical
condition re-fails and surfaces the error. -/
def connectToRemoteServer : Nat → ConnEnv → TransportStrategy → Bool → ConnResult
  | 0, _, _, _ => ⟨[], 0, .error "recursion fuel exhausted"⟩
  | fuel + 1, env, strategy, hasReason =>
      let useSSE := strategy == .sseOnly || (strategy == .sseFirst && !hasReason)
      let useHTTP := strategy == .httpOnly || (strategy == .httpFirst && !hasReason)
      if useSSE || useHTTP then
        let kind := if useSSE then TransportKind.sse else TransportKind.http
        match env.startErr kind with
        | some e =>
            if shouldAttemptFallback strategy hasReason && isProtocolLikeError e then
              let r := connectToRemoteServer fuel env strategy true
              ⟨kind :: r.attempts, r.fallbackRecords + 1, r.outcome⟩
            else ⟨[kind], 0, .error e⟩
        | none =>
            if useSSE then ⟨[kind], 0, .ok ()⟩
            else
              match env.probeErr with
              | none => ⟨[kind], 0, .ok ()⟩
              | some pe =>
                  if shouldAttemptFallback strategy hasReason && isProtocolLikeError pe then
                    let r := connectToRemoteServer fuel env .sseOnly true
                    ⟨kind :: r.attempts, r.fallbackRecords + 1, r.outcome⟩
                  else if shouldAttemptFallback strategy hasReason && isProtocolLikeError pe then
                    let r := connectToRemoteServer fuel env strategy true
                    ⟨kind :: r.attempts, r.fallbackRecords + 1, r.outcome⟩
                  else ⟨[kind], 0, .error pe⟩
      else
        let fallbackStrategy :=
          if strategy == .sseFirst then TransportStrategy.httpOnly else TransportStrategy.sseOnly
        connectToRemoteServer fuel env fallbackStrategy hasReason

/-- The primary transport kind of a fallback-capable strategy. -/
def primaryKind : TransportStrategy → TransportKind
  | .sseFirst => .sse
  | .sseOnly => .sse
  | _ => .http

/-- The opposite transport kind. -/
def oppositeKind : TransportKind → TransportKind
  | .sse => .http
  | .http => .sse

/-- The failure of one transport leg in an environment: the start error,
or for an http leg that started, the probe error. -/
def legFailure (env : ConnEnv) : TransportKind → Option String
  | .sse => env.startErr .sse
  | .http =>
      match env.startErr .http with
      | some e => some e
      | none => env.probeErr

/-! ## x402 challenge extraction (X402Protocol.extractPaymentDetails) -/

/-- The fixed network-to-chain table of X402Protocol.getChainConfig;
none models the unsupported-network throw (the rpc url is irrelevant to
the claims and elided). -/
def getChainConfig (network : String) : Option Int :=
  if network = "base" then some 8453
  else if network = "base-sepolia" then some 84532
  else none

/-- typeof v === 'string' on a possibly-undefined value. -/
def isStringO : Option JSON → Bool
  | some (.str _) => true
  | _ => false

/-- typeof v === 'number' on a possibly-undefined value. -/
def isNumberO : Option JSON → Bool
  | some (.num _) => true
  | _ => false

/-- A field that is defined and a string. -/
def strField (r : JSON) (k : String) : Option String :=
  match r.get k with
  | some (.str s) => some s
  | _ => none

/-- An optional field that, when present, must be a string. -/
def optStringOk : Option JSON → Bool
  | none => true
  | some (.str _) => true
  | _ => false

/-- An optional field that, when present, must be null or typeof object. -/
def optObjOk : Option JSON → Bool
  | none => true
  | some .null => true
  | some j => isObjLike j

/-- X402Protocol.isValidPaymentRequirement: required string fields with
address-shaped payTo and asset, a numeric maxTimeoutSeconds, and correctly
typed optional fields. -/
def isValidPaymentRequirement (r : JSON) : Bool :=
  isObjLike r &&
  isStringO (r.get "scheme") && isStringO (r.get "network") &&
  isStringO (r.get "maxAmountRequired") && isStringO (r.get "resource") &&
  isStringO (r.get "description") && isStringO (r.get "payTo") &&
  isNumberO (r.get "maxTimeoutSeconds") && isStringO (r.get "asset") &&
  (match strField r "payTo" with | some s => isAddressStr s | none => false) &&
  (match strField r "asset" with | some s => isAddressStr s | none => false) &&
  optStringOk (r.get "mimeType") && optObjOk (r.get "outputSchema") && optObjOk (r.get "extra")

/-- Lowercase hexadecimal digits of a natural number (as ethers hex
output). -/
def natToHexChars (n : Nat) : List Char := Nat.toDigits 16 n

/-- ABI encoding of transfer(address to, uint256 amount), lowercase: the
selector, the 32-byte-padded address word, the 32-byte-padded amount
word. -/
def encodeTransferData (payTo : String) (amount : Nat) : String :=
  ofChars (transferSelector
    ++ padStartZeros 64 (payTo.data.drop 2)
    ++ padStartZeros 64 (natToHexChars amount))

/-- X402Protocol.buildTransactionFromRequirement: re-validate addresses
and the atomic amount (decimal points rejected; BigInt parsing, modelled by
parseBigIntStr since ethers getBigInt coerces strings through BigInt; must
be positive), then ABI-encode the ERC-20 transfer, which enforces the
uint256 range; none models any throw in the builder. -/
def buildTransactionFromRequirement (requirement : JSON) (chainId : Int) : Option TxTemplate :=
  match strField requirement "payTo", strField requirement "asset",
        strField requirement "maxAmountRequired" with
  | some payTo, some asset, some maxAmount =>
      if ¬ isAddressStr payTo ∨ ¬ isAddressStr asset then none
      else if jsIncludes maxAmount "." then none
      else
        match parseBigIntStr maxAmount with
        | none => none
        | some v =>
            if v ≤ 0 then none
            else if 2 ^ 256 ≤ v then none
            else some
              { «to» := asset
              , data := encodeTransferData payTo v.toNat
              , value := "0x0"
              , chainId := chainId
              , gasLimit := "50000"
              , x402Requirement := some requirement }
  | _, _, _ => none

/-- The normalized challenge X402Protocol.extractPaymentDetails returns
(the constant error and code fields of PaymentRequiredResponse are
elided; currency is always 'USDC'). -/
structure PaymentDetails where
  message : String
  amount : String
  currency : String
  description : String
  transaction : TxTemplate
deriving DecidableEq

/-- X402Protocol.extractPaymentDetails: version must be exactly the number
1, accepts must be a non-empty array whose head validates, the network
must be known, the amount string must contain no decimal point and parse
to a positive value under BigInt semantics, and the transaction must
build; every throw is caught and becomes none.  The amount is presented as
formatUnits(maxAmountRequired, 6). -/
def extractPaymentDetails (response : JSON) : Option PaymentDetails :=
  if ¬ (response.get "x402Version" = some (.num 1)) then none
  else
    match response.get "accepts" with
    | some (.arr (requirement :: _)) =>
        if ¬ isValidPaymentRequirement requirement then none
        else
          match strField requirement "network", strField requirement "maxAmountRequired" with
          | some network, some maxAmount =>
              (match getChainConfig network with
               | none => none
               | some chainId =>
                   if jsIncludes maxAmount "." then none
                   else
                     match parseBigIntStr maxAmount with
                     | none => none
                     | some v =>
                         if v ≤ 0 then none
                         else
                           match buildTransactionFromRequirement requirement chainId with
                           | none => none
                           | some tx =>
                               some
                                 { message := (strField requirement "description").getD ""
                                 , amount := formatUnits6 v.toNat
                                 , currency := "USDC"
                                 , description := (strField requirement "description").getD ""
                                 , transaction := tx })
          | _, _ => none
    | _ => none

example : natToHexChars 1000000 = ['f', '4', '2', '4', '0'] := by decide

/-! ## Observation helpers and concrete instances used by the theorems -/

/-- First-match lookup in an ordered header list. -/
def lookupEntry : List (String × String) → String → Option String
  | [], _ => none
  | (k', v) :: rest, k => if k' = k then some v else lookupEntry rest k

/-- The value of the last entry whose lowercased name equals the (already
lowercase) query; this is what a sequence of Headers.set calls leaves
behind. -/
def lastLower : List (String × String) → String → Option String
  | [], _ => none
  | (k, v) :: rest, q =>
      match lastLower rest q with
      | some w => some w
      | none => if lowerStr k = q then some v else none

/-- A wallet environment with 0.5 USDC and 1 ETH available, a successful
cheap gas estimate, and a successful signer. -/
def envLowBalance : WalletEnv :=
  { balances := .ok (1/2, 1)
  , estimate := .ok (1/100000)
  , sign := .ok ("0xsignedtx", "0xsenderaddr") }

/-- A transaction template transferring 1000000 atomic units (1 USDC) to a
non-USDC-contract recipient on Base mainnet. -/
def txOneUsdc : TxTemplate :=
  { «to» := "0x2222222222222222222222222222222222222222"
  , data := encodeTransferData "0x1111111111111111111111111111111111111111" 1000000
  , value := "0x0"
  , chainId := 8453
  , gasLimit := "50000" }

/-- The same transfer template pinned to Base Sepolia (chain id 84532). -/
def txSepolia : TxTemplate :=
  { «to» := "0x2222222222222222222222222222222222222222"
  , data := encodeTransferData "0x1111111111111111111111111111111111111111" 1000000
  , value := "0x0"
  , chainId := 84532
  , gasLimit := "50000" }

/-- A transaction template whose data does not carry the ERC-20 transfer
selector. -/
def txNoSelector : TxTemplate :=
  { «to» := "0x2222222222222222222222222222222222222222"
  , data := "0xdeadbeef"
  , value := "0x0"
  , chainId := 8453
  , gasLimit := "50000" }

/-- A full x402 payment requirement with the given atomic amount string
(lowercase addresses, network base, the EIP-712 extra present). -/
def mkRequirement (maxAmount : String) : JSON :=
  .obj [("scheme", .str "exact"),
        ("network", .str "base"),
        ("maxAmountRequired", .str maxAmount),
        ("resource", .str "https://example.com/tool"),
        ("description", .str "one tool call"),
        ("payTo", .str "0x1111111111111111111111111111111111111111"),
        ("maxTimeoutSeconds", .num 300),
        ("asset", .str "0x2222222222222222222222222222222222222222"),
        ("extra", .obj [("name", .str "USD Coin"), ("version", .str "2")])]

/-- An x402 challenge payload around a requirement. -/
def mkX402Response (maxAmount : String) : JSON :=
  .obj [("x402Version", .num 1),
        ("accepts", .arr [mkRequirement maxAmount]),
        ("error", .null)]

/-- A payload carrying indicators of both protocols, the AgentPay ones
listed first. -/
def bothProtocolsPayload : JSON :=
  .obj [("error", .str "payment_required"),
        ("code", .num 402),
        ("x402Version", .num 1),
        ("accepts", .arr [])]

/-- A JSON-RPC error response whose error.data is the mixed payload. -/
def bothProtocolsMessage : JSON :=
  .obj [("jsonrpc", .str "2.0"), ("id", .num 7),
        ("error", .obj [("code", .num (-32001)),
                        ("message", .str "Payment Required"),
                        ("data", bothProtocolsPayload)])]

/-- An initialize request with a clientInfo object. -/
def initializeMsg : JSON :=
  .obj [("jsonrpc", .str "2.0"), ("id", .num 0),
        ("method", .str "initialize"),
        ("params", .obj [("protocolVersion", .str "2024-11-05"),
                         ("clientInfo", .obj [("name", .str "test-client"),
                                              ("version", .str "1.2.3")])])]

/-- What the proxy actually forwards for initializeMsg: the client name
rewritten in place. -/
def initializeMsgRewritten : JSON :=
  .obj [("jsonrpc", .str "2.0"), ("id", .num 0),
        ("method", .str "initialize"),
        ("params", .obj [("protocolVersion", .str "2024-11-05"),
                         ("clientInfo", .obj [("name", .str "test-client (via agentauth-mcp 0.1.0)"),
                                              ("version", .str "1.2.3")])])]

/-- A plain tool call without payment indicators. -/
def plainToolCallMsg : JSON :=
  .obj [("jsonrpc", .str "2.0"), ("id", .num 3),
        ("method", .str "tools/call"),
        ("params", .obj [("name", .str "echo"),
                         ("arguments", .obj [("text", .str "hi")])])]

/-- Fresh identity headers as generated per request (sample values; the
wrapper logic is independent of their content). -/
def sampleFreshAuthHeaders : List (String × String) :=
  [("X-AgentAuth-Address", "0xaddr"), ("X-AgentAuth-Signature", "sig"),
   ("X-AgentAuth-Payload", "payload")]

/-- Request-initial headers of a POST send. -/
def sampleInitHeaders : List (String × String) := [("content-type", "application/json")]

/-- A one-time payment header set as staged by the orchestrator. -/
def samplePaymentHeaders : List (String × String) := [("X-PAYMENT", "b64payload")]

/-- An environment where every transport start fails with 404 and the
streamable-HTTP probe fails with 405. -/
def envAllFail : ConnEnv :=
  { startErr := fun _ => some "Error POSTing to endpoint (HTTP 404): Not Found"
  , probeErr := some "Error POSTing to endpoint (HTTP 405): Method Not Allowed" }

/-! ## Helper lemmas -/

theorem ofChars_data (l : List Char) : (ofChars l).data = l := rfl

theorem string_ne_empty_of_data {s : String} (h : s.data ≠ []) : s ≠ "" := by
  intro e
  exact h (by rw [e])

theorem fix_chainId (t : TxTemplate) :
    (fixTruncatedTransactionData t).chainId = t.chainId := by
  unfold fixTruncatedTransactionData
  dsimp only
  by_cases h1 : t.data.data.isEmpty = true
  · rw [if_pos h1]
  · rw [if_neg h1]
    by_cases h2 : leadMatch transferSelector t.data.data = true ∧
        74 ≤ t.data.data.length ∧ t.data.data.length < 138
    · rw [if_pos h2]
    · rw [if_neg h2]

theorem fix_eq_of_not_window (t : TxTemplate)
    (h : ¬ (leadMatch transferSelector t.data.data = true ∧
            74 ≤ t.data.data.length ∧ t.data.data.length < 138)) :
    fixTruncatedTransactionData t = t := by
  unfold fixTruncatedTransactionData
  dsimp only
  by_cases h1 : t.data.data.isEmpty = true
  · rw [if_pos h1]
  · rw [if_neg h1, if_neg h]

theorem leadMatch_append (p t : List Char) : leadMatch p (p ++ t) = true := by
  induction p with
  | nil => rfl
  | cons c cs ih => simp [leadMatch, ih]

theorem leadMatch_iff_exists (p : List Char) : ∀ l, leadMatch p l = true ↔ ∃ t, l = p ++ t := by
  induction p with
  | nil => intro l; simp [leadMatch]
  | cons c cs ih =>
      intro l
      cases l with
      | nil => simp [leadMatch]
      | cons d ds =>
          simp only [leadMatch, Bool.and_eq_true, beq_iff_eq, ih, List.cons_append]
          constructor
          · rintro ⟨rfl, t, rfl⟩; exact ⟨t, rfl⟩
          · rintro ⟨t, ht⟩
            cases ht
            exact ⟨rfl, t, rfl⟩

theorem padStartZeros_length (w : Nat) (l : List Char) :
    (padStartZeros w l).length = max w l.length := by
  unfold padStartZeros
  split <;> simp <;> omega

theorem fix_window_data_length (l : List Char) (h74 : 74 ≤ l.length) (h138 : l.length < 138) :
    (l.take 74 ++ padStartZeros 64 (l.drop 74)).length = 138 := by
  simp [padStartZeros_length, List.length_take, List.length_drop]
  omega

theorem fix_eq_of_window (t : TxTemplate)
    (h : leadMatch transferSelector t.data.data = true ∧
         74 ≤ t.data.data.length ∧ t.data.data.length < 138) :
    fixTruncatedTransactionData t =
      { t with data := ofChars (t.data.data.take 74 ++ padStartZeros 64 (t.data.data.drop 74)) } := by
  unfold fixTruncatedTransactionData
  dsimp only
  by_cases h1 : t.data.data.isEmpty = true
  · exfalso
    rw [List.isEmpty_iff] at h1
    rw [h1] at h
    obtain ⟨t', ht'⟩ := (leadMatch_iff_exists _ _).mp h.1
    cases ht'
  · rw [if_neg h1, if_pos h]

theorem hexDigitVal_isSome_of {c : Char} (h : isHexDigit c = true) :
    (hexDigitVal c).isSome := by
  by_cases h1 : ('0' ≤ c ∧ c ≤ '9')
  · simp [hexDigitVal, h1]
  · by_cases h2 : ('a' ≤ c ∧ c ≤ 'f')
    · simp [hexDigitVal, h1, h2]
    · by_cases h3 : ('A' ≤ c ∧ c ≤ 'F')
      · simp [hexDigitVal, h1, h2, h3]
      · exfalso
        rw [isHexDigit, decide_eq_true_iff] at h
        tauto

theorem parseDigitsAux_isSome_of_all (l : List Char) (h : ∀ c ∈ l, isHexDigit c = true) :
    ∀ acc, (parseDigitsAux hexDigitVal 16 l acc).isSome := by
  induction l with
  | nil => intro acc; simp [parseDigitsAux]
  | cons c rest ih =>
      intro acc
      obtain ⟨d, hd⟩ := Option.isSome_iff_exists.mp (hexDigitVal_isSome_of (h c (by simp)))
      simp only [parseDigitsAux, hd]
      exact ih (fun x hx => h x (by simp [hx])) _

theorem parseHexDigits_ne_none (l : List Char) (hne : l ≠ []) (h : ∀ c ∈ l, isHexDigit c = true) :
    parseHexDigits l ≠ none := by
  cases l with
  | nil => exact absurd rfl hne
  | cons c rest =>
      have := parseDigitsAux_isSome_of_all (c :: rest) h 0
      simp only [parseHexDigits, parseDigits]
      intro he
      rw [he] at this
      cases this

theorem exists_nonhex_of_parse_none (l : List Char) (hne : l ≠ [])
    (h : parseHexDigits l = none) : ∃ c ∈ l, isHexDigit c = false := by
  by_contra hc
  push_neg at hc
  exact parseHexDigits_ne_none l hne (fun c hcl => by simpa using hc c hcl) h

theorem hexDigitVal_none_of {c : Char} (h : isHexDigit c = false) :
    hexDigitVal c = none := by
  rw [isHexDigit, decide_eq_false_iff_not] at h
  rw [hexDigitVal, if_neg (fun ha => h (Or.inl ha)),
      if_neg (fun hb => h (Or.inr (Or.inl hb))),
      if_neg (fun hc => h (Or.inr (Or.inr hc)))]

theorem parseDigitsAux_none_of_mem {c : Char} {l : List Char} (hc : c ∈ l)
    (h : isHexDigit c = false) : ∀ acc, parseDigitsAux hexDigitVal 16 l acc = none := by
  induction l with
  | nil => cases hc
  | cons d rest ih =>
      intro acc
      rcases List.mem_cons.mp hc with rfl | hmem
      · simp [parseDigitsAux, hexDigitVal_none_of h]
      · cases hd : hexDigitVal d with
        | none => simp [parseDigitsAux, hd]
        | some v => simp [parseDigitsAux, hd, ih hmem]

theorem parseHexDigits_none_of_mem {c : Char} {l : List Char} (hc : c ∈ l)
    (h : isHexDigit c = false) : parseHexDigits l = none := by
  cases l with
  | nil => cases hc
  | cons d rest =>
      simp only [parseHexDigits, parseDigits]
      exact parseDigitsAux_none_of_mem hc h 0

theorem ite_singleton_nil {α : Type} {c : Prop} [Decidable c] {x : α}
    (h : (if c then [x] else []) = []) : ¬ c := by
  intro hc
  rw [if_pos hc] at h
  cases h

theorem validate_nil_hexData (t : TxTemplate) (h : validateTransactionTemplate t = []) :
    isHexDataStr t.data = true := by
  unfold validateTransactionTemplate at h
  simp only [List.append_eq_nil] at h
  have := ite_singleton_nil h.1.1.1.1.1.2
  by_contra hb
  exact this (Or.inr (by simpa using hb))

theorem extract_zero_of_unreadable (t : TxTemplate)
    (hprem : leadMatch transferSelector t.data.data = false ∨
             parseHexDigits (takeLast 64 t.data.data) = none) :
    extractAmountFromTransaction t = 0 := by
  unfold extractAmountFromTransaction
  dsimp only
  rcases hprem with hns | hpn
  · rw [if_neg]
    rintro ⟨-, hl⟩
    rw [hns] at hl
    cases hl
  · by_cases hcond : (t.data ≠ "" ∧ leadMatch transferSelector t.data.data = true)
    · rw [if_pos hcond, hpn]
    · rw [if_neg hcond]

theorem mem_padStartZeros_of_mem {c : Char} {l : List Char} (w : Nat) (h : c ∈ l) :
    c ∈ padStartZeros w l := by
  unfold padStartZeros
  split
  · exact h
  · exact List.mem_append_right _ h

theorem transferSelector_cons :
    transferSelector = '0' :: 'x' :: ['a', '9', '0', '5', '9', 'c', 'b', 'b'] := rfl

theorem length_take74 (l : List Char) (h : 74 ≤ l.length) : (l.take 74).length = 74 := by
  rw [List.length_take]
  omega

theorem drop_split_at (l : List Char) (n k : Nat) (hk : k ≤ n) (hn : n ≤ l.length) :
    l.drop k = (l.take n).drop k ++ l.drop n := by
  conv_lhs => rw [← List.take_append_drop n l]
  rw [List.drop_append_eq_append_drop, List.length_take]
  have h2 : k - min n l.length = 0 := by omega
  rw [h2, List.drop_zero]

theorem extract_fixed_zero (t : TxTemplate)
    (hprem : leadMatch transferSelector t.data.data = false ∨
             parseHexDigits (takeLast 64 t.data.data) = none)
    (hhex : isHexDataStr (fixTruncatedTransactionData t).data = true) :
    extractAmountFromTransaction (fixTruncatedTransactionData t) = 0 := by
  by_cases hw : leadMatch transferSelector t.data.data = true ∧
      74 ≤ t.data.data.length ∧ t.data.data.length < 138
  case neg =>
    rw [fix_eq_of_not_window t hw]
    exact extract_zero_of_unreadable t hprem
  case pos =>
    rcases hprem with hns | hpn
    · rw [hns] at hw
      cases hw.1
    obtain ⟨rest, hrest⟩ := (leadMatch_iff_exists _ _).mp hw.1
    have hL74 := hw.2.1
    have hL138 := hw.2.2
    have hlen64 : (takeLast 64 t.data.data).length = 64 := by
      simp only [takeLast, List.length_drop]
      omega
    have hne : takeLast 64 t.data.data ≠ [] := by
      intro h0
      rw [h0] at hlen64
      cases hlen64
    obtain ⟨c, hcmem, hcbad⟩ := exists_nonhex_of_parse_none _ hne hpn
    have hsplit : takeLast 64 t.data.data =
        (t.data.data.take 74).drop (t.data.data.length - 64) ++ t.data.data.drop 74 := by
      simp only [takeLast]
      exact drop_split_at _ 74 _ (by omega) hL74
    rw [hsplit] at hcmem
    rw [fix_eq_of_window t hw] at hhex ⊢
    rcases List.mem_append.mp hcmem with hcr | hct
    · -- the bad character sits in the recipient region: contradicts the
      -- hex-data shape validation passed on the repaired template
      exfalso
      have htake : t.data.data.take 74 = transferSelector ++ rest.take 64 := by
        rw [hrest, List.take_append_eq_append_take]
        have hsel : transferSelector.length = 10 := rfl
        rw [List.take_of_length_le (by rw [hsel]; omega), hsel]
      have hcrest : c ∈ rest.take 64 := by
        rw [htake, List.drop_append_eq_append_drop] at hcr
        have hsel : transferSelector.length = 10 := rfl
        rw [List.drop_eq_nil_of_le (by rw [hsel]; omega), List.nil_append] at hcr
        exact List.mem_of_mem_drop hcr
      have hshape : (ofChars (t.data.data.take 74 ++ padStartZeros 64 (t.data.data.drop 74))).data
          = '0' :: 'x' :: ('a' :: '9' :: '0' :: '5' :: '9' :: 'c' :: 'b' :: 'b' ::
            (rest.take 64 ++ padStartZeros 64 (t.data.data.drop 74))) := by
        rw [ofChars_data, htake, transferSelector_cons]
        simp
      have hall : ∀ x ∈ ('a' :: '9' :: '0' :: '5' :: '9' :: 'c' :: 'b' :: 'b' ::
          (rest.take 64 ++ padStartZeros 64 (t.data.data.drop 74))), isHexDigit x = true := by
        simp only [isHexDataStr, hshape] at hhex
        exact fun x hx => List.all_eq_true.mp hhex x hx
      have hcgood : isHexDigit c = true := by
        apply hall
        simp only [List.mem_cons]
        exact Or.inr (Or.inr (Or.inr (Or.inr (Or.inr (Or.inr (Or.inr (Or.inr
          (List.mem_append_left _ hcrest))))))))
      rw [hcgood] at hcbad
      cases hcbad
    · -- the bad character survives into the repaired amount word
      apply extract_zero_of_unreadable
      refine Or.inr ?_
      have hdrop : takeLast 64 (ofChars (t.data.data.take 74 ++ padStartZeros 64 (t.data.data.drop 74))).data
          = padStartZeros 64 (t.data.data.drop 74) := by
        simp only [takeLast, ofChars_data]
        rw [fix_window_data_length _ hL74 hL138]
        have h74 : (138 : Nat) - 64 = 74 := by norm_num
        rw [h74, List.drop_append_eq_append_drop, length_take74 _ hL74,
            List.drop_eq_nil_of_le (le_of_eq (length_take74 _ hL74)), List.nil_append,
            Nat.sub_self, List.drop_zero]
      rw [hdrop]
      exact parseHexDigits_none_of_mem (mem_padStartZeros_of_mem 64 hct) hcbad

theorem txOneUsdc_fix : fixTruncatedTransactionData txOneUsdc = txOneUsdc := by decide

theorem txOneUsdc_validate :
    validateTransactionTemplate (fixTruncatedTransactionData txOneUsdc) = [] := by
  rw [txOneUsdc_fix]
  decide

theorem txOneUsdc_extract :
    extractAmountFromTransaction (fixTruncatedTransactionData txOneUsdc) = 1 := by
  rw [txOneUsdc_fix]
  unfold extractAmountFromTransaction
  dsimp only
  rw [if_pos (by decide : txOneUsdc.data ≠ "" ∧
        leadMatch transferSelector txOneUsdc.data.data = true),
      (by decide : parseHexDigits (takeLast 64 txOneUsdc.data.data) = some 1000000)]
  norm_num

theorem json_get_obj {j : JSON} {k : String} {v : JSON} (h : j.get k = some v) :
    ∃ fs, j = .obj fs := by
  cases j with
  | obj fs => exact ⟨fs, rfl⟩
  | null => cases h
  | bool b => cases h
  | num n => cases h
  | str s => cases h
  | arr xs => cases h

theorem dropWhile_eq_self_of_none {p : Char → Bool} {l : List Char}
    (h : ∀ c ∈ l, p c = false) : l.dropWhile p = l := by
  cases l with
  | nil => rfl
  | cons c cs => rw [List.dropWhile_cons, h c (by simp), if_neg (by simp)]

theorem trimChars_eq {l : List Char} (h : ∀ c ∈ l, isJsWs c = false) :
    trimChars l = l := by
  unfold trimChars
  rw [dropWhile_eq_self_of_none h,
      dropWhile_eq_self_of_none (fun c hc => h c (List.mem_reverse.mp hc)),
      List.reverse_reverse]

theorem isJsWs_false_of_digit {c : Char} (h : isDecDigit c = true) : isJsWs c = false := by
  rw [isDecDigit, decide_eq_true_iff] at h
  unfold isJsWs
  simp only [Bool.or_eq_false_iff, beq_eq_false_iff_ne]
  refine ⟨⟨⟨⟨⟨?_, ?_⟩, ?_⟩, ?_⟩, ?_⟩, ?_⟩ <;> (rintro rfl; exact absurd h (by decide))

theorem head_not_of_digits {cs : List Char} (hcs : ∀ c ∈ cs, isDecDigit c = true)
    {ch : Char} (hch : isDecDigit ch = false) : cs.head? ≠ some ch := by
  cases cs with
  | nil => simp
  | cons d ds =>
      intro he
      have hde : d = ch := by injection he
      subst hde
      rw [hcs d (by simp)] at hch
      cases hch

theorem parseBigIntStr_digits (s : String) (hne : s.data ≠ [])
    (hd : ∀ c ∈ s.data, isDecDigit c = true) :
    parseBigIntStr s = (parseDecDigits s.data).map Int.ofNat := by
  have hws : ∀ c ∈ s.data, isJsWs c = false := fun c hc => isJsWs_false_of_digit (hd c hc)
  unfold parseBigIntStr
  rw [trimChars_eq hws]
  cases hsd : s.data with
  | nil => exact absurd hsd hne
  | cons c cs =>
      rw [hsd] at hd
      have hc : isDecDigit c = true := hd c (by simp)
      have hcs : ∀ x ∈ cs, isDecDigit x = true := fun x hx => hd x (by simp [hx])
      have hnum : ∀ ch : Char, isDecDigit ch = false → cs.head? ≠ some ch :=
        fun ch hch => head_not_of_digits hcs hch
      dsimp only
      rw [if_neg, if_neg, if_neg, if_neg, if_neg]
      · rintro rfl
        exact absurd hc (by decide)
      · rintro rfl
        exact absurd hc (by decide)
      · rintro ⟨rfl, hx | hx⟩
        · exact hnum 'b' (by decide) hx
        · exact hnum 'B' (by decide) hx
      · rintro ⟨rfl, hx | hx⟩
        · exact hnum 'o' (by decide) hx
        · exact hnum 'O' (by decide) hx
      · rintro ⟨rfl, hx | hx⟩
        · exact hnum 'x' (by decide) hx
        · exact hnum 'X' (by decide) hx

theorem containsSub_single_iff (c : Char) (l : List Char) :
    containsSub l [c] = true ↔ c ∈ l := by
  induction l with
  | nil => simp [containsSub]
  | cons d ds ih =>
      simp only [containsSub, leadMatch, Bool.and_true, Bool.or_eq_true, beq_iff_eq, ih,
        List.mem_cons]

theorem dot_free_of_digits {s : String} (hd : ∀ c ∈ s.data, isDecDigit c = true) :
    jsIncludes s "." = false := by
  unfold jsIncludes
  have hdata : (("." : String)).data = ['.'] := rfl
  rw [hdata]
  by_contra hb
  have htrue : containsSub s.data ['.'] = true := by
    revert hb
    cases containsSub s.data ['.'] <;> simp
  exact absurd (hd '.' ((containsSub_single_iff '.' s.data).mp htrue)) (by decide)

theorem valid_requirement_fields (requirement : JSON)
    (h : isValidPaymentRequirement requirement = true) :
    ∃ payTo asset, strField requirement "payTo" = some payTo ∧ isAddressStr payTo = true ∧
      strField requirement "asset" = some asset ∧ isAddressStr asset = true := by
  simp only [isValidPaymentRequirement, Bool.and_eq_true] at h
  have hpm := h.1.1.1.1.2
  have ham := h.1.1.1.2
  cases hp : strField requirement "payTo" with
  | none => rw [hp] at hpm; cases hpm
  | some payTo =>
      cases ha : strField requirement "asset" with
      | none => rw [ha] at ham; cases ham
      | some asset =>
          rw [hp] at hpm
          rw [ha] at ham
          exact ⟨payTo, asset, rfl, hpm, rfl, ham⟩

theorem extract_reduces (response requirement : JSON) (rest : List JSON)
    (network maxAmount : String) (cid : Int)
    (hver : response.get "x402Version" = some (.num 1))
    (hacc : response.get "accepts" = some (.arr (requirement :: rest)))
    (hvalid : isValidPaymentRequirement requirement = true)
    (hnet : strField requirement "network" = some network)
    (hcc : getChainConfig network = some cid)
    (hamt : strField requirement "maxAmountRequired" = some maxAmount) :
    extractPaymentDetails response =
      (if jsIncludes maxAmount "." = true then none
       else
         match parseBigIntStr maxAmount with
         | none => none
         | some v =>
             if v ≤ 0 then none
             else
               match buildTransactionFromRequirement requirement cid with
               | none => none
               | some tx =>
                   some { message := (strField requirement "description").getD ""
                        , amount := formatUnits6 v.toNat
                        , currency := "USDC"
                        , description := (strField requirement "description").getD ""
                        , transaction := tx }) := by
  unfold extractPaymentDetails
  rw [if_neg (not_not_intro hver), hacc]
  dsimp only
  rw [if_neg (by simp [hvalid]), hnet, hamt]
  dsimp only
  rw [hcc]

theorem build_reduces (requirement : JSON) (cid : Int) (payTo asset maxAmount : String)
    (hp : strField requirement "payTo" = some payTo)
    (ha : strField requirement "asset" = some asset)
    (hm : strField requirement "maxAmountRequired" = some maxAmount)
    (hpa : isAddressStr payTo = true) (haa : isAddressStr asset = true)
    (hdot : jsIncludes maxAmount "." = false) :
    buildTransactionFromRequirement requirement cid =
      match parseBigIntStr maxAmount with
      | none => none
      | some v =>
          if v ≤ 0 then none
          else if 2 ^ 256 ≤ v then none
          else some { «to» := asset, data := encodeTransferData payTo v.toNat,
                      value := "0x0", chainId := cid, gasLimit := "50000",
                      x402Requirement := some requirement } := by
  unfold buildTransactionFromRequirement
  rw [hp, ha, hm]
  dsimp only
  rw [if_neg (by simp [hpa, haa]), if_neg (by simp [hdot])]

theorem connect_sseOnly_fail (fuel : Nat) (env : ConnEnv) (b : Bool) (e : String)
    (he : env.startErr .sse = some e) :
    connectToRemoteServer (fuel + 1) env .sseOnly b = ⟨[.sse], 0, .error e⟩ := by
  simp [connectToRemoteServer, shouldAttemptFallback, he]

theorem connect_httpOnly_fail (fuel : Nat) (env : ConnEnv) (b : Bool) (e : String)
    (he : legFailure env .http = some e) :
    connectToRemoteServer (fuel + 1) env .httpOnly b = ⟨[.http], 0, .error e⟩ := by
  cases hh : env.startErr .http with
  | some e' =>
      have hee : e' = e := by
        simp only [legFailure, hh] at he
        exact Option.some.inj he
      subst hee
      simp [connectToRemoteServer, shouldAttemptFallback, hh]
  | none =>
      have hpe : env.probeErr = some e := by
        simp only [legFailure, hh] at he
        exact he
      simp [connectToRemoteServer, shouldAttemptFallback, hh, hpe]

theorem connect_sseFirst_trace (fuel : Nat) (env : ConnEnv) (e1 e2 : String)
    (he1 : env.startErr .sse = some e1) (hel1 : isProtocolLikeError e1 = true)
    (he2 : legFailure env .http = some e2) :
    connectToRemoteServer (fuel + 3) env .sseFirst false =
      ⟨[.sse, .http], 1, .error e2⟩ := by
  cases hh : env.startErr .http with
  | some e =>
      have hee : e = e2 := by
        simp only [legFailure, hh] at he2
        exact Option.some.inj he2
      subst hee
      simp [connectToRemoteServer, shouldAttemptFallback, he1, hel1, hh]
  | none =>
      have hpe : env.probeErr = some e2 := by
        simp only [legFailure, hh] at he2
        exact he2
      simp [connectToRemoteServer, shouldAttemptFallback, he1, hel1, hh, hpe]

theorem connect_httpFirst_trace (fuel : Nat) (env : ConnEnv) (e1 e2 : String)
    (he2 : legFailure env .http = some e2) (hel2 : isProtocolLikeError e2 = true)
    (he1 : env.startErr .sse = some e1) :
    connectToRemoteServer (fuel + 3) env .httpFirst false =
      ⟨[.http, .sse], 1, .error e1⟩ := by
  cases hh : env.startErr .http with
  | some e =>
      have hee : e = e2 := by
        simp only [legFailure, hh] at he2
        exact Option.some.inj he2
      subst hee
      simp [connectToRemoteServer, shouldAttemptFallback, hh, hel2, he1]
  | none =>
      have hpe : env.probeErr = some e2 := by
        simp only [legFailure, hh] at he2
        exact he2
      simp [connectToRemoteServer, shouldAttemptFallback, hh, hpe, hel2, he1]

theorem lookup_setEntry (l : List (String × String)) (k v q : String) :
    lookupEntry (setEntry l k v) q = if q = k then some v else lookupEntry l q := by
  induction l with
  | nil =>
      by_cases hq : q = k
      · subst hq
        simp [setEntry, lookupEntry]
      · simp [setEntry, lookupEntry, hq, Ne.symm hq]
  | cons e rest ih =>
      obtain ⟨k1, v1⟩ := e
      by_cases hk : k1 = k
      · subst hk
        by_cases hq : q = k1
        · subst hq
          simp [setEntry, lookupEntry]
        · simp [setEntry, lookupEntry, hq, Ne.symm hq]
      · by_cases hq1 : k1 = q
        · subst hq1
          simp [setEntry, lookupEntry, hk, Ne.symm hk]
        · simp [setEntry, lookupEntry, hk, hq1, ih]

theorem lookup_some_mem {l : List (String × String)} {q v : String}
    (h : lookupEntry l q = some v) : (q, v) ∈ l := by
  induction l with
  | nil => cases h
  | cons e rest ih =>
      obtain ⟨k', v'⟩ := e
      rw [lookupEntry] at h
      by_cases hk : k' = q
      · rw [if_pos hk] at h
        subst hk
        exact List.mem_cons.mpr (Or.inl (by rw [Option.some.inj h]))
      · rw [if_neg hk] at h
        exact List.mem_cons.mpr (Or.inr (ih h))

theorem lookup_none_of_keys {l : List (String × String)} {q : String}
    (h : ∀ kv ∈ l, kv.1 ≠ q) : lookupEntry l q = none := by
  induction l with
  | nil => rfl
  | cons e rest ih =>
      rw [lookupEntry, if_neg (h e (by simp))]
      exact ih (fun kv hkv => h kv (by simp [hkv]))

theorem lookup_append_single_none {l : List (String × String)} {p : String × String}
    {q : String} (h : lookupEntry l q = none) (hp : p.1 ≠ q) :
    lookupEntry (l ++ [p]) q = none := by
  induction l with
  | nil => simp [lookupEntry, if_neg hp]
  | cons e rest ih =>
      rw [lookupEntry] at h
      by_cases hk : e.1 = q
      · rw [if_pos hk] at h
        cases h
      · rw [if_neg hk] at h
        rw [List.cons_append, lookupEntry, if_neg hk]
        exact ih h

theorem setEntry_append_none {l : List (String × String)} {k v : String}
    (h : lookupEntry l k = none) : setEntry l k v = l ++ [(k, v)] := by
  induction l with
  | nil => rfl
  | cons e rest ih =>
      obtain ⟨k', v'⟩ := e
      rw [lookupEntry] at h
      by_cases hk : k' = k
      · rw [if_pos hk] at h
        cases h
      · rw [if_neg hk] at h
        rw [setEntry, if_neg hk, List.cons_append, ih h]

theorem mem_setEntry {kv : String × String} {l : List (String × String)} {k v : String}
    (h : kv ∈ setEntry l k v) : kv = (k, v) ∨ kv ∈ l := by
  induction l with
  | nil =>
      rw [setEntry] at h
      exact Or.inl (List.mem_singleton.mp h)
  | cons e rest ih =>
      obtain ⟨k', v'⟩ := e
      rw [setEntry] at h
      by_cases hk : k' = k
      · rw [if_pos hk] at h
        rcases List.mem_cons.mp h with h1 | h1
        · exact Or.inl h1
        · exact Or.inr (List.mem_cons.mpr (Or.inr h1))
      · rw [if_neg hk] at h
        rcases List.mem_cons.mp h with h1 | h1
        · exact Or.inr (List.mem_cons.mpr (Or.inl h1))
        · rcases ih h1 with h2 | h2
          · exact Or.inl h2
          · exact Or.inr (List.mem_cons.mpr (Or.inr h2))

theorem mem_spreadMerge {kv : String × String} {a b : List (String × String)}
    (h : kv ∈ spreadMerge a b) : kv ∈ a ∨ kv ∈ b := by
  induction b generalizing a with
  | nil => exact Or.inl h
  | cons e b' ih =>
      rcases ih (a := setEntry a e.1 e.2) h with h1 | h1
      · rcases mem_setEntry h1 with h2 | h2
        · exact Or.inr (List.mem_cons.mpr (Or.inl (by rw [h2])))
        · exact Or.inl h2
      · exact Or.inr (List.mem_cons.mpr (Or.inr h1))

theorem spreadMerge_append (a b : List (String × String))
    (hb : ∀ kv ∈ b, lookupEntry a kv.1 = none)
    (hnd : (b.map fun kv => lowerStr kv.1).Nodup) :
    spreadMerge a b = a ++ b := by
  induction b generalizing a with
  | nil => simp [spreadMerge]
  | cons e b' ih =>
      have hstep : spreadMerge a (e :: b') = spreadMerge (setEntry a e.1 e.2) b' := rfl
      rw [hstep, setEntry_append_none (hb e (by simp))]
      rw [List.map_cons, List.nodup_cons] at hnd
      rw [ih (a ++ [e]) ?hb2 hnd.2, List.append_assoc, List.singleton_append]
      case hb2 =>
        intro kv hkv
        apply lookup_append_single_none (hb kv (by simp [hkv]))
        intro he
        exact hnd.1 (by rw [he]; exact List.mem_map_of_mem _ hkv)

theorem lookup_applyHeaders (entries : List (String × String)) :
    ∀ (hs : List (String × String)) (q : String),
      lookupEntry (applyHeaders hs entries) q =
        match lastLower entries q with
        | some w => some w
        | none => lookupEntry hs q := by
  induction entries with
  | nil => intro hs q; rfl
  | cons e es ih =>
      intro hs q
      obtain ⟨k1, v1⟩ := e
      have hstep : applyHeaders hs ((k1, v1) :: es) = applyHeaders (headersSet hs k1 v1) es := rfl
      rw [hstep, ih]
      rw [show lastLower ((k1, v1) :: es) q =
            (match lastLower es q with
             | some w => some w
             | none => if lowerStr k1 = q then some v1 else none) from rfl]
      cases lastLower es q with
      | some w => rfl
      | none =>
          dsimp only
          simp only [headersSet]
          rw [lookup_setEntry]
          by_cases hq : q = lowerStr k1
          · rw [if_pos hq, if_pos hq.symm]
          · rw [if_neg hq, if_neg (fun h => hq h.symm)]

theorem lastLower_eq_none {l : List (String × String)} {q : String}
    (h : ∀ kv ∈ l, lowerStr kv.1 ≠ q) : lastLower l q = none := by
  induction l with
  | nil => rfl
  | cons e rest ih =>
      obtain ⟨k', v'⟩ := e
      rw [lastLower, ih (fun kv hkv => h kv (by simp [hkv]))]
      exact if_neg (h (k', v') (by simp))

theorem lastLower_append (a b : List (String × String)) (q : String) :
    lastLower (a ++ b) q =
      match lastLower b q with
      | some w => some w
      | none => lastLower a q := by
  induction a with
  | nil =>
      rw [List.nil_append]
      cases lastLower b q <;> rfl
  | cons e a' ih =>
      rw [List.cons_append, lastLower, ih, lastLower]
      cases lastLower b q with
      | some w => rfl
      | none => rfl

theorem lastLower_unique {p : List (String × String)} {k v : String}
    (hmem : (k, v) ∈ p) (hnd : (p.map fun kv => lowerStr kv.1).Nodup) :
    lastLower p (lowerStr k) = some v := by
  induction p with
  | nil => cases hmem
  | cons e rest ih =>
      rw [List.map_cons, List.nodup_cons] at hnd
      rcases List.mem_cons.mp hmem with h1 | h1
      · subst h1
        rw [lastLower, lastLower_eq_none, if_pos rfl]
        intro kv hkv he
        exact hnd.1 (by rw [← he]; exact List.mem_map_of_mem _ hkv)
      · rw [lastLower, ih h1 hnd.2]

theorem mkHeaders_eq (init : List (String × String)) :
    mkHeaders init = applyHeaders [] init := rfl

/-! ## Claim theorems -/

/-- C7: the transaction-data repair is idempotent (repairing twice equals
repairing once, for every template), it never alters a template outside
its trigger window (data with the transfer selector and length in
[74, 138)), and the x402 repair is the identity. -/
theorem C7_repair_idempotent_and_windowed :
    (∀ t : TxTemplate,
       fixTruncatedTransactionData (fixTruncatedTransactionData t) =
         fixTruncatedTransactionData t) ∧
    (∀ t : TxTemplate,
       ¬ (leadMatch transferSelector t.data.data = true ∧
          74 ≤ t.data.data.length ∧ t.data.data.length < 138) →
       fixTruncatedTransactionData t = t) ∧
    (∀ t : TxTemplate, x402FixTruncatedTransactionData t = t) := by
  refine ⟨?_, fix_eq_of_not_window, fun t => rfl⟩
  intro t
  by_cases hw : leadMatch transferSelector t.data.data = true ∧
      74 ≤ t.data.data.length ∧ t.data.data.length < 138
  · rw [fix_eq_of_window t hw]
    apply fix_eq_of_not_window
    intro hcon
    have hlen := fix_window_data_length t.data.data hw.2.1 hw.2.2
    rw [show ({ t with data := ofChars (t.data.data.take 74 ++ padStartZeros 64 (t.data.data.drop 74)) } : TxTemplate).data.data = t.data.data.take 74 ++ padStartZeros 64 (t.data.data.drop 74) from rfl] at hcon
    omega
  · rw [fix_eq_of_not_window t hw, fix_eq_of_not_window t hw]

/-- C7 witness: the no-op direction applied to a concrete template whose
data is outside the repair window. -/
theorem C7_witness :
    fixTruncatedTransactionData txNoSelector = txNoSelector :=
  C7_repair_idempotent_and_windowed.2.1 txNoSelector (by decide)

/-- C8: protocol detection is total and never raises: for every message,
every registered descriptor list (with predicates that may throw) and
every behaviour of the JSON parser, no exception escapes the detector
body, and detectProtocol returns exactly the body's no-match-or-detection
result. -/
theorem C8_detection_total (protocols : List (String × DetectPredicate))
    (priority : List String) (parse : String → Option JSON) (m : JSON) :
    ∃ o, detectProtocolE protocols priority parse m = .ok o ∧
         detectProtocol protocols priority parse m = o := by
  unfold detectProtocol detectProtocolE
  cases h : extractMCPResponseData parse m with
  | none => exact ⟨none, rfl, rfl⟩
  | some payload =>
      by_cases ht : payload.truthy
      · exact ⟨detectLoop protocols payload priority, by simp [ht], by simp [ht]⟩
      · exact ⟨none, by simp [ht], by simp [ht]⟩

/-- C9: every payment authorization goes through the agentpay-v002
descriptor (hardcoded at the protocol lookup), whose validator rejects
every chain id other than 8453; a template pinned to Base Sepolia (84532)
therefore always yields a structured validation error naming the
unexpected chain, and never headers, whatever the wallet does. -/
theorem C9_sepolia_always_rejected (env : WalletEnv) (tx : TxTemplate)
    (h : tx.chainId = 84532) :
    (∃ errs, processPaymentAuthorization env tx = .error (.invalidTransaction errs) ∧
       VErr.unexpectedChainId 84532 ∈ errs) ∧
    (∀ hs, processPaymentAuthorization env tx ≠ .headers hs) := by
  have hchain : (fixTruncatedTransactionData tx).chainId = 84532 := by
    rw [fix_chainId]; exact h
  have hmem : VErr.unexpectedChainId 84532 ∈
      validateTransactionTemplate (fixTruncatedTransactionData tx) := by
    unfold validateTransactionTemplate
    rw [hchain]
    simp
  have hne : validateTransactionTemplate (fixTruncatedTransactionData tx) ≠ [] :=
    List.ne_nil_of_mem hmem
  have hproc : processPaymentAuthorization env tx =
      .error (.invalidTransaction (validateTransactionTemplate (fixTruncatedTransactionData tx))) := by
    unfold processPaymentAuthorization
    simp [hne]
  exact ⟨⟨_, hproc, hmem⟩, fun hs he => by rw [hproc] at he; cases he⟩

/-- C9 witness: the theorem applied to the concrete Base Sepolia
template. -/
theorem C9_witness :
    (∃ errs, processPaymentAuthorization envLowBalance txSepolia =
        .error (.invalidTransaction errs) ∧ VErr.unexpectedChainId 84532 ∈ errs) ∧
    (∀ hs, processPaymentAuthorization envLowBalance txSepolia ≠ .headers hs) :=
  C9_sepolia_always_rejected envLowBalance txSepolia (by decide)

/-- C4: when an approved authorization passes validation and the available
USDC balance is below the amount recomputed from the transaction, the
orchestrator returns the structured insufficient-USDC error naming the
required and available amounts, whose difference is the shortfall; at
balance 0.5 against a transaction requiring 1.0 the error carries required
1 and available 0.5, a shortfall of exactly 0.5. -/
theorem C4_insufficient_funds_shortfall :
    (∀ (env : WalletEnv) (tx : TxTemplate) (u eb : ℚ),
       validateTransactionTemplate (fixTruncatedTransactionData tx) = [] →
       env.balances = .ok (u, eb) →
       u < extractAmountFromTransaction (fixTruncatedTransactionData tx) →
       processPaymentAuthorization env tx =
         .error (.insufficientUsdc
           (extractAmountFromTransaction (fixTruncatedTransactionData tx)) u)) ∧
    (processPaymentAuthorization envLowBalance txOneUsdc =
       .error (.insufficientUsdc 1 (1/2)) ∧ (1 : ℚ) - 1/2 = 1/2) := by
  constructor
  · intro env tx u eb hval hbal hlt
    unfold processPaymentAuthorization
    dsimp only
    rw [if_neg (by simp [hval])]
    rw [hbal]
    dsimp only
    rw [if_pos hlt]
  · refine ⟨?_, by norm_num⟩
    unfold processPaymentAuthorization
    dsimp only
    rw [if_neg (by simp [txOneUsdc_validate])]
    rw [show envLowBalance.balances = .ok (1/2, 1) from rfl]
    dsimp only
    rw [txOneUsdc_extract, if_pos (by norm_num : (1/2 : ℚ) < 1)]

/-- C4 witness: the universal direction applied to the low-balance wallet
and the one-USDC transfer. -/
theorem C4_witness :
    validateTransactionTemplate (fixTruncatedTransactionData txOneUsdc) = [] ∧
    (1/2 : ℚ) < extractAmountFromTransaction (fixTruncatedTransactionData txOneUsdc) ∧
    processPaymentAuthorization envLowBalance txOneUsdc =
      .error (.insufficientUsdc
        (extractAmountFromTransaction (fixTruncatedTransactionData txOneUsdc)) (1/2)) :=
  ⟨txOneUsdc_validate, by rw [txOneUsdc_extract]; norm_num,
    C4_insufficient_funds_shortfall.1 envLowBalance txOneUsdc (1/2) 1 txOneUsdc_validate rfl
      (by rw [txOneUsdc_extract]; norm_num)⟩

/-- C10: a transaction whose data does not begin with the ERC-20 transfer
selector, or whose amount word does not decode as hexadecimal, recomputes
to a required amount of 0; consequently, with any non-negative USDC
balance, processing such a transaction can never return the
insufficient-USDC error. -/
theorem C10_unreadable_amount_never_insufficient :
    (∀ t : TxTemplate,
       (leadMatch transferSelector t.data.data = false ∨
        parseHexDigits (takeLast 64 t.data.data) = none) →
       extractAmountFromTransaction t = 0) ∧
    (∀ (env : WalletEnv) (t : TxTemplate) (u eb : ℚ),
       (leadMatch transferSelector t.data.data = false ∨
        parseHexDigits (takeLast 64 t.data.data) = none) →
       env.balances = .ok (u, eb) → 0 ≤ u →
       ∀ r a, processPaymentAuthorization env t ≠ .error (.insufficientUsdc r a)) := by
  refine ⟨extract_zero_of_unreadable, ?_⟩
  intro env t u eb hprem hbal hu r a hproc
  by_cases hval : validateTransactionTemplate (fixTruncatedTransactionData t) = []
  case neg =>
    unfold processPaymentAuthorization at hproc
    dsimp only at hproc
    rw [if_pos hval] at hproc
    exact absurd hproc (by simp)
  case pos =>
    have hreq := extract_fixed_zero t hprem (validate_nil_hexData _ hval)
    unfold processPaymentAuthorization at hproc
    dsimp only at hproc
    rw [if_neg (by simp [hval]), hbal] at hproc
    dsimp only at hproc
    rw [hreq, if_neg (not_lt.mpr hu)] at hproc
    by_cases hgs : (estimateTransactionGas env eb).sufficient = true
    · rw [if_neg (by simp [hgs])] at hproc
      cases hsign : env.sign with
      | error e2 =>
          rw [hsign] at hproc
          exact absurd hproc (by simp)
      | ok pr =>
          rw [hsign] at hproc
          obtain ⟨s, f⟩ := pr
          exact absurd hproc (by simp)
    · rw [if_pos (by simp [hgs])] at hproc
      exact absurd hproc (by simp)

/-- C3: with a fallback-capable strategy against an endpoint where every
connection or probe attempt fails with a fallback-eligible error, exactly
two distinct transport kinds are attempted — the primary once, then its
opposite once — the fallback reason is recorded in the ledger exactly once
(hence at most once), and the second leg's failure is raised to the
caller as the connection error. -/
theorem C3_fallback_two_kinds (fuel : Nat) (env : ConnEnv) (s : TransportStrategy)
    (hs : s = .sseFirst ∨ s = .httpFirst)
    (hsse : ∃ e, env.startErr .sse = some e ∧ isProtocolLikeError e = true)
    (hhttp : ∃ e, legFailure env .http = some e ∧ isProtocolLikeError e = true) :
    (connectToRemoteServer (fuel + 3) env s false).attempts =
      [primaryKind s, oppositeKind (primaryKind s)] ∧
    (connectToRemoteServer (fuel + 3) env s false).fallbackRecords = 1 ∧
    ∃ e2, legFailure env (oppositeKind (primaryKind s)) = some e2 ∧
      (connectToRemoteServer (fuel + 3) env s false).outcome = .error e2 := by
  obtain ⟨e1, he1, hel1⟩ := hsse
  obtain ⟨e2, he2, hel2⟩ := hhttp
  rcases hs with rfl | rfl
  · rw [connect_sseFirst_trace fuel env e1 e2 he1 hel1 he2]
    exact ⟨rfl, rfl, e2, he2, rfl⟩
  · rw [connect_httpFirst_trace fuel env e1 e2 he2 hel2 he1]
    exact ⟨rfl, rfl, e1, he1, rfl⟩

/-- C3 witness: the theorem applied to an environment whose transports all
fail with 404 and whose probe fails with 405, under http-first. -/
theorem C3_witness :
    (connectToRemoteServer 3 envAllFail .httpFirst false).attempts = [.http, .sse] ∧
    (connectToRemoteServer 3 envAllFail .httpFirst false).fallbackRecords = 1 ∧
    ∃ e2, legFailure envAllFail (oppositeKind (primaryKind .httpFirst)) = some e2 ∧
      (connectToRemoteServer 3 envAllFail .httpFirst false).outcome = .error e2 :=
  C3_fallback_two_kinds 0 envAllFail .httpFirst (Or.inr rfl)
    ⟨_, rfl, by decide⟩ ⟨_, rfl, by decide⟩

/-- C1 (amended): both proxy directions forward a message carrying no
payment indicators unchanged — except that a local-to-remote initialize
request with a truthy clientInfo is mutated in place (clientInfo.name
gains the gateway suffix) before being forwarded, so the byte-for-byte
guarantee holds exactly for the no-payment-indicator messages that are
not initialize requests carrying clientInfo (the counterexample shows the
initialize case the claim singles out is in fact rewritten). -/
theorem C1_forward_unchanged_except_clientinfo :
    (∀ (walletActive : Bool) (authorize : JSON → AuthOutcome) (m : JSON),
       hasPaymentAuthorization m = false →
       (m.get "method" ≠ some (.str "initialize") ∨
        (∃ p, m.get "params" = some p ∧ p ≠ .null ∧ truthyO (p.get "clientInfo") = false)) →
       localToRemote walletActive authorize m = (.forward m, none)) ∧
    (∀ (walletActive : Bool) (parse : String → Option JSON) (enrich : Option JSON) (m : JSON),
       detectProtocol (registeredProtocols parse) protocolPriority parse m = none →
       remoteToLocal walletActive parse enrich m = .forward m) := by
  constructor
  · intro walletActive authorize m hauth hinit
    have hrw : clientInfoRewrite m = .ok m := by
      unfold clientInfoRewrite
      by_cases hm : m.get "method" = some (.str "initialize")
      · rw [if_pos hm]
        rcases hinit with hne | ⟨p, hp, hpn, hci⟩
        · exact absurd hm hne
        · rw [hp]
          rcases p with _ | b | n | s | xs | fs
          · exact absurd rfl hpn
          all_goals
            dsimp only
            rw [if_neg (by simp [hci])]
      · rw [if_neg hm]
    unfold localToRemote
    rw [hrw]
    dsimp only
    rw [if_neg (by simp [hauth])]
  · intro walletActive parse enrich m hdet
    unfold remoteToLocal
    rw [if_neg (by simp [hdet])]

/-- C1 witness: a plain tool call without payment indicators passes both
directions unchanged, with nothing staged. -/
theorem C1_witness :
    localToRemote true (fun _ => AuthOutcome.err "unused") plainToolCallMsg =
      (.forward plainToolCallMsg, none) ∧
    remoteToLocal true (fun _ => none) none plainToolCallMsg = .forward plainToolCallMsg :=
  ⟨C1_forward_unchanged_except_clientinfo.1 true (fun _ => AuthOutcome.err "unused")
      plainToolCallMsg (by decide) (Or.inl (by decide)),
   C1_forward_unchanged_except_clientinfo.2 true (fun _ => none) none plainToolCallMsg (by decide)⟩

/-- C1 counterexample: an initialize request with clientInfo carries no
payment indicators, yet the proxy forwards it with clientInfo.name
rewritten, not byte-for-byte unchanged. -/
theorem C1_counterexample :
    localToRemote false (fun _ => AuthOutcome.err "") initializeMsg =
      (.forward initializeMsgRewritten, none) ∧
    initializeMsgRewritten ≠ initializeMsg := by
  exact ⟨by decide, by decide⟩

/-- C2: staging a one-time payment header set and performing two
consecutive POST sends: the pending slot is cleared in the same step that
computes the first send's headers (before that send resolves), the staged
values are present on the first send only, absent from the second, and the
second send is identical to a send with nothing staged.  Hypotheses: the
queried name is bound in the staged set, the staged names are distinct
after lowercasing, and they collide with no fresh identity, static custom,
or request-initial header name. -/
theorem C2_one_time_headers
    (fresh base p init : List (String × String)) (st : WrapperState) (k v : String)
    (hkv : lookupEntry p k = some v)
    (hnodup : (p.map fun kv => lowerStr kv.1).Nodup)
    (hdisj : ∀ kv ∈ p, ∀ kv' ∈ fresh ++ base, lowerStr kv'.1 ≠ lowerStr kv.1)
    (hinit : ∀ kv ∈ init, lowerStr kv.1 ≠ lowerStr k) :
    (interceptPost fresh base init (setPaymentHeadersForNextRequest st p)).2 = ⟨none⟩ ∧
    lookupEntry (interceptPost fresh base init (setPaymentHeadersForNextRequest st p)).1
      (lowerStr k) = some v ∧
    lookupEntry (interceptPost fresh base init
        (interceptPost fresh base init (setPaymentHeadersForNextRequest st p)).2).1
      (lowerStr k) = none ∧
    interceptPost fresh base init
        (interceptPost fresh base init (setPaymentHeadersForNextRequest st p)).2 =
      interceptPost fresh base init ⟨none⟩ := by
  have hbase' : ∀ kv ∈ spreadMerge fresh base, kv ∈ fresh ++ base := by
    intro kv hkv'
    rcases mem_spreadMerge hkv' with h | h
    · exact List.mem_append_left _ h
    · exact List.mem_append_right _ h
  have hmem : (k, v) ∈ p := lookup_some_mem hkv
  have h1 : interceptPost fresh base init (setPaymentHeadersForNextRequest st p) =
      (applyHeaders (mkHeaders init) (spreadMerge (spreadMerge fresh base) p), ⟨none⟩) := rfl
  refine ⟨by rw [h1], ?_, ?_, by rw [h1]⟩
  · rw [h1]
    dsimp only
    rw [spreadMerge_append _ _ ?habs hnodup, lookup_applyHeaders, lastLower_append,
      lastLower_unique hmem hnodup]
    case habs =>
      intro kv hkvp
      apply lookup_none_of_keys
      intro kv' hkv' he
      exact hdisj kv hkvp kv' (hbase' kv' hkv') (by rw [he])
  · rw [h1]
    dsimp only
    have h2 : interceptPost fresh base init ⟨none⟩ =
        (applyHeaders (mkHeaders init) (spreadMerge fresh base), ⟨none⟩) := rfl
    rw [h2]
    dsimp only
    rw [lookup_applyHeaders,
      lastLower_eq_none (fun kv hkv' => hdisj (k, v) hmem kv (hbase' kv hkv')),
      mkHeaders_eq, lookup_applyHeaders, lastLower_eq_none hinit]
    rfl

/-- C2 witness: the theorem applied to sample identity, payment and
request headers. -/
theorem C2_witness :
    (interceptPost sampleFreshAuthHeaders [] sampleInitHeaders
        (setPaymentHeadersForNextRequest ⟨none⟩ samplePaymentHeaders)).2 = ⟨none⟩ ∧
    lookupEntry (interceptPost sampleFreshAuthHeaders [] sampleInitHeaders
        (setPaymentHeadersForNextRequest ⟨none⟩ samplePaymentHeaders)).1
      (lowerStr "X-PAYMENT") = some "b64payload" ∧
    lookupEntry (interceptPost sampleFreshAuthHeaders [] sampleInitHeaders
        (interceptPost sampleFreshAuthHeaders [] sampleInitHeaders
          (setPaymentHeadersForNextRequest ⟨none⟩ samplePaymentHeaders)).2).1
      (lowerStr "X-PAYMENT") = none ∧
    interceptPost sampleFreshAuthHeaders [] sampleInitHeaders
        (interceptPost sampleFreshAuthHeaders [] sampleInitHeaders
          (setPaymentHeadersForNextRequest ⟨none⟩ samplePaymentHeaders)).2 =
      interceptPost sampleFreshAuthHeaders [] sampleInitHeaders ⟨none⟩ :=
  C2_one_time_headers sampleFreshAuthHeaders [] samplePaymentHeaders sampleInitHeaders
    ⟨none⟩ "X-PAYMENT" "b64payload" (by decide) (by decide) (by decide) (by decide)

/-- C5: a payload carrying indicators of both the x402 protocol
(x402Version non-null with an accepts array) and the AgentPay protocol
(error payment_required or code 402) always resolves to x402, the
higher-priority descriptor.  The payload is quantified over arbitrary
field orders and every condition is a key lookup, so the result is
independent of the key order. -/
theorem C5_priority_resolves_x402 (parse : String → Option JSON)
    (m payload v : JSON) (items : List JSON)
    (hx : extractMCPResponseData parse m = some payload)
    (hver : payload.get "x402Version" = some v) (hvn : v ≠ .null)
    (hacc : payload.get "accepts" = some (.arr items))
    (hap : payload.get "error" = some (.str "payment_required") ∨
           payload.get "code" = some (.num 402)) :
    detectProtocol (registeredProtocols parse) protocolPriority parse m =
      some ("x402", payload) := by
  obtain ⟨fs, rfl⟩ := json_get_obj hver
  have hdet : x402IsPaymentRequired (.obj fs) = true := by
    simp only [x402IsPaymentRequired, isObjLike, hver, hacc, Bool.true_and,
      Bool.and_eq_true, decide_eq_true_iff]
    exact ⟨hvn, trivial⟩
  unfold detectProtocol detectProtocolE
  rw [hx]
  dsimp only
  rw [if_neg (by simp [JSON.truthy])]
  simp [detectLoop, protocolPriority, registeredProtocols, lookupProto, x402Pred, hdet]

/-- C5 witness: the theorem applied to a concrete error response whose
error.data carries the AgentPay indicators first and the x402 indicators
after them. -/
theorem C5_witness :
    detectProtocol (registeredProtocols (fun _ => none)) protocolPriority (fun _ => none)
      bothProtocolsMessage = some ("x402", bothProtocolsPayload) :=
  C5_priority_resolves_x402 (fun _ => none) bothProtocolsMessage bothProtocolsPayload
    (.num 1) [] (by decide) (by decide) (by decide) (by decide) (Or.inl (by decide))

/-- C6 (amended): for a well-formed x402 challenge, extraction succeeds
exactly when the amount string contains no decimal point and parses under
JavaScript BigInt string semantics to a positive value below 2^256 (the
uint256 bound enforced by the ABI encoder); in particular every pure
positive decimal digit string below 2^256 yields the amount presented as
its value over 10^6 as a decimal string (so 1000000 becomes 1.0).  The
original claim's failure clause is narrowed: BigInt also accepts
hexadecimal, octal, binary and whitespace-padded forms, so strings that
are not pure integers can still extract (see the counterexample). -/
theorem C6_amount_normalization (response requirement : JSON) (rest : List JSON)
    (network maxAmount : String) (cid : Int)
    (hver : response.get "x402Version" = some (.num 1))
    (hacc : response.get "accepts" = some (.arr (requirement :: rest)))
    (hvalid : isValidPaymentRequirement requirement = true)
    (hnet : strField requirement "network" = some network)
    (hcc : getChainConfig network = some cid)
    (hamt : strField requirement "maxAmountRequired" = some maxAmount) :
    (∀ n : Nat, (∀ c ∈ maxAmount.data, isDecDigit c = true) →
       parseDecDigits maxAmount.data = some n → 0 < n → n < 2 ^ 256 →
       ∃ d, extractPaymentDetails response = some d ∧ d.amount = formatUnits6 n) ∧
    (extractPaymentDetails response = none ↔
       (jsIncludes maxAmount "." = true ∨ parseBigIntStr maxAmount = none ∨
        ∃ v, parseBigIntStr maxAmount = some v ∧ (v ≤ 0 ∨ 2 ^ 256 ≤ v))) := by
  obtain ⟨payTo, asset, hp, hpa, ha, haa⟩ := valid_requirement_fields requirement hvalid
  have hext := extract_reduces response requirement rest network maxAmount cid
    hver hacc hvalid hnet hcc hamt
  constructor
  · intro n hdigits hparse hpos hrange
    have hne : maxAmount.data ≠ [] := by
      intro he
      rw [he] at hparse
      cases hparse
    have hdot : jsIncludes maxAmount "." = false := dot_free_of_digits hdigits
    have hbig : parseBigIntStr maxAmount = some (n : Int) := by
      rw [parseBigIntStr_digits maxAmount hne hdigits, hparse]
      rfl
    have hbuild := build_reduces requirement cid payTo asset maxAmount hp ha hamt hpa haa hdot
    rw [hext, if_neg (by simp [hdot]), hbig]
    dsimp only
    rw [if_neg (by omega), hbuild, hbig]
    dsimp only
    rw [if_neg (by omega), if_neg (by omega)]
    exact ⟨_, rfl, by simp⟩
  · rw [hext]
    constructor
    · intro hnone
      by_cases hdot : jsIncludes maxAmount "." = true
      · exact Or.inl hdot
      · rw [if_neg (by simp [hdot])] at hnone
        cases hbig : parseBigIntStr maxAmount with
        | none => exact Or.inr (Or.inl rfl)
        | some v =>
            rw [hbig] at hnone
            dsimp only at hnone
            by_cases hv0 : v ≤ 0
            · exact Or.inr (Or.inr ⟨v, rfl, Or.inl hv0⟩)
            · rw [if_neg hv0] at hnone
              have hbuild := build_reduces requirement cid payTo asset maxAmount
                hp ha hamt hpa haa (by revert hdot; cases jsIncludes maxAmount "." <;> simp)
              rw [hbuild, hbig] at hnone
              dsimp only at hnone
              rw [if_neg hv0] at hnone
              by_cases hvr : 2 ^ 256 ≤ v
              · exact Or.inr (Or.inr ⟨v, rfl, Or.inr hvr⟩)
              · rw [if_neg hvr] at hnone
                cases hnone
    · intro hcase
      rcases hcase with hdot | hbig | ⟨v, hbig, hbad⟩
      · rw [if_pos hdot]
      · rw [hbig]
        split <;> rfl
      · by_cases hdot : jsIncludes maxAmount "." = true
        · rw [if_pos hdot]
        · rw [if_neg (by simp [hdot]), hbig]
          dsimp only
          rcases hbad with hv0 | hvr
          · rw [if_pos hv0]
          · by_cases hv0 : v ≤ 0
            · rw [if_pos hv0]
            · rw [if_neg hv0]
              have hbuild := build_reduces requirement cid payTo asset maxAmount
                hp ha hamt hpa haa (by revert hdot; cases jsIncludes maxAmount "." <;> simp)
              rw [hbuild, hbig]
              dsimp only
              rw [if_neg hv0, if_pos hvr]

/-- C6 witness: the pure atomic amount 1000000 extracts with the amount
presented as the decimal string 1.0. -/
theorem C6_witness :
    (∃ d, extractPaymentDetails (mkX402Response "1000000") = some d ∧
       d.amount = formatUnits6 1000000) ∧ formatUnits6 1000000 = "1.0" :=
  ⟨(C6_amount_normalization (mkX402Response "1000000") (mkRequirement "1000000") []
      "base" "1000000" 8453 (by decide) (by decide) (by decide) (by decide) (by decide)
      (by decide)).1 1000000 (by decide) (by decide) (by decide) (by decide),
   by decide⟩

/-- C6 counterexample: the amount string 0x10 contains no decimal point
and is not a pure positive integer string, yet extraction succeeds with
amount 0.000016 (JavaScript BigInt accepts hexadecimal literals), where
the claim requires extraction to fail. -/
theorem C6_counterexample :
    jsIncludes "0x10" "." = false ∧
    ¬ (∀ c ∈ ("0x10" : String).data, isDecDigit c = true) ∧
    (extractPaymentDetails (mkX402Response "0x10")).map PaymentDetails.amount =
      some "0.000016" := by
  refine ⟨by decide, by decide, by decide⟩

/-- C10 witness: the no-selector template recomputes to amount 0 and its
processing with a zero USDC balance does not produce the asset
insufficiency error. -/
theorem C10_witness :
    extractAmountFromTransaction txNoSelector = 0 ∧
    ∀ r a, processPaymentAuthorization envLowBalance txNoSelector ≠
      .error (.insufficientUsdc r a) :=
  ⟨C10_unreadable_amount_never_insufficient.1 txNoSelector (Or.inl (by decide)),
   C10_unreadable_amount_never_insufficient.2 envLowBalance txNoSelector (1/2) 1
     (Or.inl (by decide)) rfl (by norm_num)⟩

end AAMCP
